import Mathlib

/-!
# lldbg: the event bridge between the debugger engine and the UI loop

A shallow embedding of `src/LLDBEventListenerThread.cpp` and of the driver
functions of `src/Application.cpp` (`tick`, `get_process`,
`add_breakpoint_to_viewed_file`, `create_new_target`,
`delete_current_targets`, `~Application`, and the enumeration of the
breakpoints in `draw`).

Conventions of the embedding.

* The debugger engine (LLDB) is an external collaborator.  Its handles are
  records holding what the program reads from them; an invalid handle is
  `none`.
* The program is sequential per thread.  What the other thread or the engine
  does between two steps enters as an explicit input: the result of each
  `WaitForEvent` call, each reading of the atomic run flag, each reading of
  the process state.
* `assert(c)` with `c` false, `p->f()` with `p` null and an exception that
  nobody catches stop the program; a function that can stop the program
  returns `Except (Crash σ) σ`, the crash holding the state reached when
  the program stopped.
* Members of `Application` that none of the embedded functions reads
  (`render_state`, `command_line`) are left out; only `draw`, which is a
  parameter here, uses them.
-/

set_option linter.unusedVariables false

namespace lldbg

/-! ## Engine handles -/

/-- The engine's process states (`lldb::StateType`). -/
inductive StateType
  | eStateInvalid
  | eStateUnloaded
  | eStateConnected
  | eStateAttaching
  | eStateLaunching
  | eStateStopped
  | eStateRunning
  | eStateStepping
  | eStateCrashed
  | eStateDetached
  | eStateExited
  | eStateSuspended
  deriving DecidableEq, Repr

/-- The engine's name of a state (`lldb::SBDebugger::StateAsCString`). -/
def StateAsCString : StateType → String
  | .eStateInvalid => "invalid"
  | .eStateUnloaded => "unloaded"
  | .eStateConnected => "connected"
  | .eStateAttaching => "attaching"
  | .eStateLaunching => "launching"
  | .eStateStopped => "stopped"
  | .eStateRunning => "running"
  | .eStateStepping => "stepping"
  | .eStateCrashed => "crashed"
  | .eStateDetached => "detached"
  | .eStateExited => "exited"
  | .eStateSuspended => "suspended"

/-- An engine event (`lldb::SBEvent`) as delivered by a successful
`WaitForEvent`.  The program reads only the process state out of it;
`serial` tells two events with the same state apart. -/
structure SBEvent where
  serial : Nat
  state : StateType
  deriving DecidableEq, Repr

/-- The state an event reports (`lldb::SBProcess::GetStateFromEvent`). -/
def SBProcess.GetStateFromEvent (event : SBEvent) : StateType :=
  event.state

/-- A listener handle (`lldb::SBListener`): `none` is the invalid handle a
default construction or `Clear()` leaves, `some n` the engine listener `n`. -/
abbrev SBListener := Option Nat

/-- `SBProcess::eBroadcastBitStateChanged`. -/
def eBroadcastBitStateChanged : Nat := 1
/-- `SBProcess::eBroadcastBitSTDOUT`. -/
def eBroadcastBitSTDOUT : Nat := 4
/-- `SBProcess::eBroadcastBitSTDERR`. -/
def eBroadcastBitSTDERR : Nat := 8

/-- A process broadcaster (`lldb::SBBroadcaster`): the registered listeners,
each with the mask of event bits it listens for. -/
structure SBBroadcaster where
  listeners : List (Nat × Nat)
  deriving DecidableEq, Repr

/-- Registers `listener` for the bits of `event_mask`
(`SBBroadcaster::AddListener`): an invalid listener is ignored, the mask of
a listener already registered is widened, a new listener is appended. -/
def SBBroadcaster.AddListener (b : SBBroadcaster) (listener : SBListener)
    (event_mask : Nat) : SBBroadcaster :=
  match listener with
  | none => b
  | some n =>
    if b.listeners.any (fun p => p.1 == n) then
      { listeners := b.listeners.map
          (fun p => if p.1 == n then (p.1, p.2 ||| event_mask) else p) }
    else
      { listeners := b.listeners ++ [(n, event_mask)] }

/-- Removes `listener` for all event bits (`SBBroadcaster::RemoveListener`
with its default mask). -/
def SBBroadcaster.RemoveListener (b : SBBroadcaster) (listener : SBListener) :
    SBBroadcaster :=
  match listener with
  | none => b
  | some n => { listeners := b.listeners.filter (fun p => p.1 != n) }

/-- Whether listener `n` is registered on the broadcaster. -/
def SBBroadcaster.listens (b : SBBroadcaster) (n : Nat) : Bool :=
  b.listeners.any (fun p => p.1 == n)

/-- A debuggee process (`lldb::SBProcess`, valid). -/
structure SBProcess where
  name : String
  state : StateType
  exit_status : Int
  broadcaster : SBBroadcaster
  deriving DecidableEq, Repr

/-- `SBProcess::GetExitStatus` on a handle: the invalid handle answers 0. -/
def SBProcess.GetExitStatus (process : Option SBProcess) : Int :=
  match process with
  | some p => p.exit_status
  | none => 0

/-- `SBProcess::GetBroadcaster` on a handle; the invalid handle has a
broadcaster nobody is registered on. -/
def SBProcess.GetBroadcaster (process : Option SBProcess) : SBBroadcaster :=
  match process with
  | some p => p.broadcaster
  | none => { listeners := [] }

/-- A line entry (`lldb::SBLineEntry`): file name and directory of its file
spec, null (`none`) where the entry has none, and the line. -/
structure SBLineEntry where
  filename : Option String
  directory : Option String
  line : Nat
  deriving DecidableEq, Repr

/-- An address (`lldb::SBAddress`, valid). -/
structure SBAddress where
  line_entry : SBLineEntry
  deriving DecidableEq, Repr

/-- A breakpoint location (`lldb::SBBreakpointLocation`, valid); its address
may be invalid (`none`). -/
structure SBBreakpointLocation where
  address : Option SBAddress
  deriving DecidableEq, Repr

/-- `SBBreakpointLocation::GetAddress` on a handle. -/
def SBBreakpointLocation.GetAddress (location : Option SBBreakpointLocation) :
    Option SBAddress :=
  match location with
  | some l => l.address
  | none => none

/-- `SBAddress::GetLineEntry` on a handle; the invalid handle gives the
entry without file and with line 0. -/
def SBAddress.GetLineEntry (address : Option SBAddress) : SBLineEntry :=
  match address with
  | some a => a.line_entry
  | none => { filename := none, directory := none, line := 0 }

/-- A breakpoint (`lldb::SBBreakpoint`, valid), with its locations. -/
structure SBBreakpoint where
  id : Int
  file : String
  line : Int
  locations : List SBBreakpointLocation
  deriving DecidableEq, Repr

/-- `SBBreakpoint::GetLocationAtIndex` on a valid breakpoint. -/
def SBBreakpoint.GetLocationAtIndex (breakpoint : SBBreakpoint) (index : Nat) :
    Option SBBreakpointLocation :=
  breakpoint.locations[index]?

/-- A debug target (`lldb::SBTarget`, valid).  `id` is the identity of the
target behind the handle; `resolve file line` are the code locations the
engine finds for a source position. -/
structure SBTarget where
  id : Nat
  executable : String
  process : Option SBProcess
  breakpoints : List SBBreakpoint
  next_breakpoint_id : Int
  resolve : String → Int → List SBBreakpointLocation

/-- `SBTarget::GetProcess` on a handle. -/
def SBTarget.GetProcess (target : Option SBTarget) : Option SBProcess :=
  match target with
  | some t => t.process
  | none => none

/-- `SBTarget::GetNumBreakpoints` on a handle. -/
def SBTarget.GetNumBreakpoints (target : Option SBTarget) : Nat :=
  match target with
  | some t => t.breakpoints.length
  | none => 0

/-- The debugger session (`lldb::SBDebugger`): its own listener, its
targets and the index of the selected one.  `breakpoint_requests` is a ghost
field: the arguments of the calls of `BreakpointCreateByLocation` the engine
has received, in order. -/
structure SBDebugger where
  listener : Nat
  targets : List SBTarget
  selected : Nat
  breakpoint_requests : List (String × Int) := []

/-- `SBDebugger::GetNumTargets`. -/
def SBDebugger.GetNumTargets (debugger : SBDebugger) : Nat :=
  debugger.targets.length

/-- `SBDebugger::GetSelectedTarget`; invalid when no target is selected. -/
def SBDebugger.GetSelectedTarget (debugger : SBDebugger) : Option SBTarget :=
  debugger.targets[debugger.selected]?

/-- `SBDebugger::GetListener`. -/
def SBDebugger.GetListener (debugger : SBDebugger) : SBListener :=
  some debugger.listener

/-- Writes `f` through the handle of the selected target; nothing changes
when no target is selected. -/
def SBDebugger.onSelectedTarget (debugger : SBDebugger) (f : SBTarget → SBTarget) :
    SBDebugger :=
  match debugger.targets[debugger.selected]? with
  | some t => { debugger with targets := debugger.targets.set debugger.selected (f t) }
  | none => debugger

/-- Writes `f` through the handle of the selected target's process
broadcaster; nothing changes when that process is invalid. -/
def SBDebugger.onBroadcaster (debugger : SBDebugger) (f : SBBroadcaster → SBBroadcaster) :
    SBDebugger :=
  debugger.onSelectedTarget fun t =>
    match t.process with
    | some p => { t with process := some { p with broadcaster := f p.broadcaster } }
    | none => t

/-! ## Crashes and the log -/

/-- Why the program stopped. -/
inductive Fault
  | assertion_failed
  | null_dereference
  | uncaught_exception
  deriving DecidableEq, Repr

/-- A stopped program: the cause and the state reached. -/
structure Crash (σ : Type) where
  fault : Fault
  state : σ

/-- Severity of a log line (`LOG(...)`). -/
inductive LogLevel
  | Debug
  | Error
  deriving DecidableEq, Repr

/-- One line written through `LOG`. -/
structure LogEntry where
  level : LogLevel
  message : String
  deriving DecidableEq, Repr

/-! ## LLDBEventListenerThread -/

/-- Modelled from the spec: the event queue `m_events`; its class is declared
in a header that is not among the sources.  The spec (4.1) makes it an
unbounded FIFO of engine events: `push` appends to the tail, `pop` removes
and returns the head if there is one and otherwise returns no event. -/
abbrev EventQueue := List SBEvent

/-- Modelled from the spec: `push(event)` appends to the tail. -/
def EventQueue.push (q : EventQueue) (event : SBEvent) : EventQueue :=
  q ++ [event]

/-- Modelled from the spec: `pop()` removes and returns the head if the
queue is non-empty, else returns empty. -/
def EventQueue.pop (q : EventQueue) : Option SBEvent × EventQueue :=
  match q with
  | [] => (none, [])
  | event :: rest => (some event, rest)

/-- The handle of the background thread (`std::thread`); `serial` counts the
threads the listener has spawned before it. -/
structure Thread where
  serial : Nat
  deriving DecidableEq, Repr

/-- What the listener object does that is visible outside it. -/
inductive Effect
  | store_continue (value : Bool)
  | add_listener (listener : SBListener) (event_mask : Nat)
  | remove_listener (listener : SBListener)
  | spawn_thread
  | join_thread
  | reset_thread
  | clear_listener
  | log (entry : LogEntry)
  deriving DecidableEq, Repr

/-- The listener object.  `m_listener`, `m_continue`, `m_thread` and
`m_events` are the members the source uses; `history` is a ghost field that
records the effects of `start` and `stop` in program order. -/
structure LLDBEventListenerThread where
  m_listener : SBListener
  m_continue : Bool
  m_thread : Option Thread
  m_events : EventQueue
  history : List Effect

namespace LLDBEventListenerThread

/-- The constructor: `m_listener()`, `m_continue(false)`, no thread, no
events. -/
def ctor : LLDBEventListenerThread :=
  { m_listener := none, m_continue := false, m_thread := none, m_events := [], history := [] }

/-- Appends an effect to the ghost history. -/
def record (l : LLDBEventListenerThread) (e : Effect) : LLDBEventListenerThread :=
  { l with history := l.history ++ [e] }

/-- Modelled from the spec: `pop_event`, the consumer end of the queue,
defined in the header that is not among the sources; it pops `m_events`. -/
def pop_event (l : LLDBEventListenerThread) : Option SBEvent × LLDBEventListenerThread :=
  ((EventQueue.pop l.m_events).1, { l with m_events := (EventQueue.pop l.m_events).2 })

/-- The body of the background thread, `poll_events`, run over the steps
the thread gets to take.  A step is one turn of `while (m_continue.load())`:
the value the load returns and, for a turn that enters the body, what
`m_listener.WaitForEvent(1, event)` returns (`none`: timed out, `some e`:
event `e` received; the engine hands out valid events only, which is what
the `assert` of the body states).  The result is the queue and whether the
loop has exited; `false` means the steps ran out while it was still
running. -/
def poll_events : List (Bool × Option SBEvent) → EventQueue → EventQueue × Bool
  | [], q => (q, false)
  | (false, _) :: _, q => (q, true)
  | (true, some event) :: steps, q => poll_events steps (q.push event)
  | (true, none) :: steps, q => poll_events steps q

/-- The number of threads spawned so far, from the ghost history. -/
def threads_spawned (l : LLDBEventListenerThread) : Nat :=
  l.history.count Effect.spawn_thread

/-- The listen flags of `start`. -/
def listen_flags : Nat :=
  eBroadcastBitStateChanged ||| eBroadcastBitSTDOUT ||| eBroadcastBitSTDERR

/-- `LLDBEventListenerThread::start`. -/
def start (l : LLDBEventListenerThread) (debugger : SBDebugger) :
    LLDBEventListenerThread × SBDebugger :=
  let l := { l with m_listener := debugger.GetListener }
  let debugger := debugger.onBroadcaster fun b => b.AddListener l.m_listener listen_flags
  let l := l.record (.add_listener l.m_listener listen_flags)
  let l := { l with m_continue := true }.record (.store_continue true)
  let l :=
    match l.m_thread with
    | none => { l with m_thread := some { serial := l.threads_spawned } }.record .spawn_thread
    | some _ => l
  let l := l.record (.log { level := .Debug, message := "Successfully launched LLDBEventListenerThread." })
  (l, debugger)

/-- What `m_thread->join()` waits for: the background thread finishes the
engine waits it is still to complete (`pending`, begun while the flag read
true), then reads the flag `false` and leaves `poll_events`. -/
def join_steps (pending : List (Option SBEvent)) : List (Bool × Option SBEvent) :=
  pending.map (fun w => (true, w)) ++ [(false, none)]

/-- `LLDBEventListenerThread::stop`.  `pending` are the results of the
engine waits the background thread completes before it observes the flag.
`m_thread->join()` on a null `m_thread` dereferences a null pointer. -/
def stop (pending : List (Option SBEvent)) (l : LLDBEventListenerThread)
    (debugger : SBDebugger) :
    Except (Crash (LLDBEventListenerThread × SBDebugger)) (LLDBEventListenerThread × SBDebugger) :=
  let l := { l with m_continue := false }.record (.store_continue false)
  match l.m_thread with
  | none => .error { fault := .null_dereference, state := (l, debugger) }
  | some _ =>
    let l := { l with m_events := (poll_events (join_steps pending) l.m_events).1 }.record .join_thread
    let l := { l with m_thread := none }.record .reset_thread
    let debugger := debugger.onBroadcaster fun b => b.RemoveListener l.m_listener
    let l := l.record (.remove_listener l.m_listener)
    let l := { l with m_listener := none }.record .clear_listener
    let l := l.record (.log { level := .Debug, message := "Successfully stopped LLDBEventListenerThread." })
    .ok (l, debugger)

end LLDBEventListenerThread

/-! ## Application -/

/-- The exit dialog record (`lldbg::ExitDialog`). -/
structure ExitDialog where
  process_name : String
  exit_code : Int
  deriving DecidableEq, Repr

/-- A file shown in the viewer (`lldbg::FileReference`). -/
structure FileReference where
  canonical_path : String
  deriving DecidableEq, Repr

/-- The open files; `focus` is what `open_files.focus()` returns. -/
structure OpenFiles where
  focus : Option FileReference
  deriving DecidableEq, Repr

/-- The text editor widget: what `LineClicked()` returns and the markers
last given to `SetBreakpoints`. -/
structure TextEditor where
  line_clicked : Option Int
  breakpoints : List Int
  deriving DecidableEq, Repr

/-- The application's breakpoint table (`app.breakpoints`): file and line
of each breakpoint it knows. -/
structure BreakpointSet where
  entries : List (String × Int)
  deriving DecidableEq, Repr

/-- The part of the application state the renderer works on. -/
structure View where
  debugger : SBDebugger
  open_files : OpenFiles
  text_editor : TextEditor
  breakpoints : BreakpointSet
  file_browser : Option String
  log : List LogEntry

/-- The application state (`lldbg::Application`); `file_browser` is the
directory the file browser is rooted at, `log` what has been written through
`LOG`. -/
structure Application where
  debugger : SBDebugger
  event_listener : LLDBEventListenerThread
  exit_dialog : Option ExitDialog
  open_files : OpenFiles
  text_editor : TextEditor
  breakpoints : BreakpointSet
  file_browser : Option String
  log : List LogEntry

/-- The collaborators of the driver that lie outside the sources: the
renderer `draw` (which reads and writes the debugger, the open files, the
editor, the breakpoint table, the file browser and the log, and neither the
event listener nor the exit dialog), and the two operations of the breakpoint table. -/
structure Collaborators where
  draw : View → Except Fault View
  Synchronize : BreakpointSet → Option SBTarget → BreakpointSet
  Get : BreakpointSet → String → List Int

namespace Application

/-- `LOG(level) << message`. -/
def LOG (app : Application) (level : LogLevel) (message : String) : Application :=
  { app with log := app.log ++ [{ level := level, message := message }] }

/-- The renderer's part of the state. -/
def view (app : Application) : View :=
  { debugger := app.debugger, open_files := app.open_files, text_editor := app.text_editor,
    breakpoints := app.breakpoints, file_browser := app.file_browser, log := app.log }

/-- The state with the renderer's part replaced. -/
def withView (app : Application) (v : View) : Application :=
  { app with debugger := v.debugger, open_files := v.open_files, text_editor := v.text_editor,
             breakpoints := v.breakpoints, file_browser := v.file_browser, log := v.log }

end Application

/-- `get_process`: asserts that the debugger has at most one target and
returns the process of the selected target. -/
def get_process (app : Application) : Except (Crash Application) (Option SBProcess) :=
  if app.debugger.GetNumTargets ≤ 1 then
    .ok (SBTarget.GetProcess app.debugger.GetSelectedTarget)
  else
    .error { fault := .assertion_failed, state := app }

/-- The body of the drain loop of `tick` for a popped event. -/
def tick_event (app : Application) (event : SBEvent) : Except (Crash Application) Application :=
  let new_state := SBProcess.GetStateFromEvent event
  let state_descr := StateAsCString new_state
  let app := app.LOG .Debug ("Found event with new state: " ++ state_descr)
  if new_state = .eStateExited then
    match get_process app with
    | .error c => .error c
    | .ok process =>
      let dialog : ExitDialog :=
        { process_name := "asdf", exit_code := SBProcess.GetExitStatus process }
      let app := { app with exit_dialog := some dialog }
      .ok (app.LOG .Debug "Set exit dialog")
  else
    .ok app

/-- The drain loop of `tick` (`while (true) ... pop_event() ... else break`).
Besides the state it returns what the successive calls of `pop_event`
returned, in order; the last one is the empty answer that ends the loop. -/
def tick_drain (app : Application) :
    Except (Crash Application) (Application × List (Option SBEvent)) :=
  match h : app.event_listener.pop_event with
  | (none, l) => .ok ({ app with event_listener := l }, [none])
  | (some event, l) =>
    match h1 : tick_event { app with event_listener := l } event with
    | .error c => .error c
    | .ok app1 =>
      match tick_drain app1 with
      | .error c => .error c
      | .ok (app2, pops) => .ok (app2, some event :: pops)
termination_by app.event_listener.m_events.length
decreasing_by
  have h2 : app1.event_listener = l := by
    unfold tick_event at h1
    simp only [Application.LOG] at h1
    split at h1
    · split at h1
      · cases h1
      · cases h1; rfl
    · cases h1; rfl
  have h3 : l.m_events.length + 1 = app.event_listener.m_events.length := by
    unfold LLDBEventListenerThread.pop_event EventQueue.pop at h
    cases hq : app.event_listener.m_events with
    | nil => simp [hq] at h
    | cons e rest =>
      simp only [hq, Prod.mk.injEq] at h
      rw [← h.2]
      rfl
  rw [h2]
  omega

/-- `SBTarget::BreakpointCreateByLocation` on the selected target: the
engine creates a breakpoint for `file:line` (with the locations it
resolves, possibly none), adds it to the target and returns it; on an
invalid target, and for line 0, nothing is created and the returned handle
is invalid.  The request is recorded in either case. -/
def SBDebugger.BreakpointCreateByLocation (debugger : SBDebugger) (file : String) (line : Int) :
    SBDebugger × Option SBBreakpoint :=
  let debugger :=
    { debugger with breakpoint_requests := debugger.breakpoint_requests ++ [(file, line)] }
  match debugger.GetSelectedTarget with
  | some t =>
    if line = 0 then
      (debugger, none)
    else
      let bp : SBBreakpoint :=
        { id := t.next_breakpoint_id, file := file, line := line,
          locations := t.resolve file line }
      (debugger.onSelectedTarget fun t =>
          { t with breakpoints := t.breakpoints ++ [bp],
                   next_breakpoint_id := t.next_breakpoint_id + 1 },
        some bp)
  | none => (debugger, none)

/-- `SBTarget::BreakpointDelete` on the selected target. -/
def SBDebugger.BreakpointDelete (debugger : SBDebugger) (break_id : Int) : SBDebugger :=
  debugger.onSelectedTarget fun t =>
    { t with breakpoints := t.breakpoints.filter (fun b => b.id != break_id) }

/-- `SBBreakpoint::IsValid` on a handle. -/
def SBBreakpoint.IsValid (breakpoint : Option SBBreakpoint) : Bool :=
  breakpoint.isSome

/-- `SBBreakpoint::GetNumLocations` on a handle. -/
def SBBreakpoint.GetNumLocations (breakpoint : Option SBBreakpoint) : Nat :=
  match breakpoint with
  | some b => b.locations.length
  | none => 0

/-- `SBBreakpoint::GetID` on a handle; the invalid handle has the invalid
id 0. -/
def SBBreakpoint.GetID (breakpoint : Option SBBreakpoint) : Int :=
  match breakpoint with
  | some b => b.id
  | none => 0

/-- The conversion of an `int` argument to a `uint32_t` parameter. -/
def to_uint32 (n : Int) : Int :=
  n % 4294967296

/-- `add_breakpoint_to_viewed_file`.  `line` is an `int`; the parameter of
`BreakpointCreateByLocation` it is passed to is a `uint32_t`. -/
def add_breakpoint_to_viewed_file (C : Collaborators) (app : Application) (line : Int) :
    Application :=
  match app.open_files.focus with
  | some ref =>
    let focus_filepath := ref.canonical_path
    let created := app.debugger.BreakpointCreateByLocation focus_filepath (to_uint32 line)
    let app := { app with debugger := created.1 }
    let new_breakpoint := created.2
    if SBBreakpoint.IsValid new_breakpoint ∧ SBBreakpoint.GetNumLocations new_breakpoint > 0 then
      let app := { app with
        breakpoints := C.Synchronize app.breakpoints app.debugger.GetSelectedTarget }
      { app with
        text_editor := { app.text_editor with
          breakpoints := C.Get app.breakpoints focus_filepath } }
    else
      let app := app.LOG .Debug "Removing invalid break point"
      { app with debugger := app.debugger.BreakpointDelete (SBBreakpoint.GetID new_breakpoint) }
  | none => app

/-- The part of `tick` from the call of `draw` on: draw, then turn a
clicked line into a breakpoint. -/
def tick_render (C : Collaborators) (app : Application) : Except (Crash Application) Application :=
  match C.draw app.view with
  | .error f => .error { fault := f, state := app }
  | .ok v =>
    let app := app.withView v
    let line_clicked := app.text_editor.line_clicked
    match line_clicked with
    | some line => .ok (add_breakpoint_to_viewed_file C app line)
    | none => .ok app

/-- `tick`: drain the event queue, then draw and handle a clicked line. -/
def tick (C : Collaborators) (app : Application) : Except (Crash Application) Application :=
  match tick_drain app with
  | .error c => .error c
  | .ok (app, _) => tick_render C app

/-- The application state with the event queue replaced. -/
def Application.withEvents (app : Application) (q : EventQueue) : Application :=
  { app with event_listener := { app.event_listener with m_events := q } }

/-- The constructor `Application::Application`, as far as the state of the
embedding goes: a debugger session without targets (`SBDebugger::Create`),
whose listener is `listener`, and default-constructed members. -/
def Application.ctor (listener : Nat) : Application :=
  { debugger := { listener := listener, targets := [], selected := 0 },
    event_listener := LLDBEventListenerThread.ctor,
    exit_dialog := none,
    open_files := { focus := none },
    text_editor := { line_clicked := none, breakpoints := [] },
    breakpoints := { entries := [] },
    file_browser := none,
    log := [] }

/-- The destructor `Application::~Application`: `event_listener.stop(debugger)`;
`SBDebugger::Terminate()` and `cleanup_rendering()` follow when `stop`
returns. -/
def Application.dtor (pending : List (Option SBEvent)) (app : Application) :
    Except (Crash Application) Application :=
  match app.event_listener.stop pending app.debugger with
  | .error c =>
    .error { fault := c.fault,
             state := { app with event_listener := c.state.1, debugger := c.state.2 } }
  | .ok (l, debugger) => .ok { app with event_listener := l, debugger := debugger }

/-! ## create_new_target -/

/-- The kinds of `TargetStartError` (`TargetStartError::Type`). -/
inductive TargetStartError.Type
  | HasTargetAlready
  | ExecutableDoesNotExist
  | TargetCreation
  | Launch
  | AttachTimeout
  deriving DecidableEq, Repr

/-- The error `create_new_target` returns. -/
structure TargetStartError where
  type : TargetStartError.Type
  msg : String
  deriving DecidableEq, Repr

/-- The file system as `create_new_target` sees it (`std::filesystem`).
`canonical` answers `none` where `fs::canonical` throws. -/
structure FileSystem where
  canonical : String → Option String
  path_exists : String → Bool
  is_directory : String → Bool
  has_parent_path : String → Bool
  parent_path : String → String
  current_path : String

/-- What the engine answers during one call of `create_new_target`.  An
error carries `lldb_error.GetCString()`, which may be null (`none`).
`GetState n` is what the `n`-th call of `process.GetState()` in the attach
loop returns. -/
structure Engine where
  CreateTarget : String → Except (Option String) SBTarget
  Launch : SBTarget → List String → Except (Option String) SBProcess
  GetState : Nat → StateType

/-- `SBDebugger::CreateTarget` succeeded: the new target joins the list and
is selected. -/
def SBDebugger.addTarget (debugger : SBDebugger) (target : SBTarget) : SBDebugger :=
  { debugger with targets := debugger.targets ++ [target],
                  selected := debugger.targets.length }

/-- `SBDebugger::DeleteTarget`. -/
def SBDebugger.DeleteTarget (debugger : SBDebugger) (target : SBTarget) : SBDebugger :=
  { debugger with targets := debugger.targets.filter (fun t => t.id != target.id) }

/-- `SBTarget::Launch` succeeded: the target has the new process. -/
def SBDebugger.setProcess (debugger : SBDebugger) (target : SBTarget) (process : SBProcess) :
    SBDebugger :=
  { debugger with
    targets := debugger.targets.map
      (fun t => if t.id == target.id then { t with process := some process } else t) }

/-- `SBProcess::Continue` on the process of the selected target. -/
def SBDebugger.Continue (debugger : SBDebugger) : SBDebugger :=
  debugger.onSelectedTarget fun t =>
    match t.process with
    | some p => { t with process := some { p with state := .eStateRunning } }
    | none => t

/-- How `operator<<` writes a `std::filesystem::path`: in double quotes,
with a backslash before each double quote and backslash of the path. -/
def quoted (path : String) : String :=
  let q := Char.ofNat 34
  let bs := Char.ofNat 92
  String.mk ([q] ++ path.toList.flatMap (fun c => if c = q ∨ c = bs then [bs, c] else [c]) ++ [q])

/-- The directory `create_new_target` roots the file browser at. -/
def file_browser_root (fs : FileSystem) (workdir : Option String) (full_exe_path : String) :
    String :=
  let fallback :=
    if fs.has_parent_path full_exe_path then fs.parent_path full_exe_path else fs.current_path
  match workdir with
  | some w => if fs.path_exists w && fs.is_directory w then w else fallback
  | none => fallback

/-- The attach loop of `create_new_target`:
`while (process.GetState() == eStateAttaching) { sleep 100 ms;
ms_attaching += 100; if (ms_attaching / 1000 > 5) return AttachTimeout; }`.
`poll` numbers the calls of `GetState`.  The result is the final
`ms_attaching` and whether the loop gave up.  `ms_attaching` is a `size_t`
that starts at 0 and never passes 6000, so it does not wrap. -/
def attach_wait (GetState : Nat → StateType) (poll : Nat) (ms_attaching : Nat) : Nat × Bool :=
  if GetState poll = .eStateAttaching then
    let ms_attaching1 := ms_attaching + 100
    if h : ms_attaching1 / 1000 > 5 then
      (ms_attaching1, true)
    else
      attach_wait GetState (poll + 1) ms_attaching1
  else
    (ms_attaching, false)
termination_by 6000 - ms_attaching
decreasing_by
  simp only [gt_iff_lt, not_lt] at h
  omega

/-- `create_new_target`. -/
def create_new_target (fs : FileSystem) (engine : Engine) (app : Application)
    (exe_filepath : String) (argv : List String) (delay_start : Bool)
    (workdir : Option String) :
    Except (Crash Application) (Application × Option TargetStartError) :=
  if app.debugger.GetNumTargets > 0 then
    .ok (app, some { type := .HasTargetAlready,
                     msg := "Multiple targets not yet supported by lldbg." })
  else
    match fs.canonical exe_filepath with
    | none => .error { fault := .uncaught_exception, state := app }
    | some full_exe_path =>
      if !fs.path_exists full_exe_path then
        .ok (app, some { type := .ExecutableDoesNotExist,
                         msg := "Requested executable does not exist: " ++ full_exe_path })
      else
        let app := { app with file_browser := some (file_browser_root fs workdir full_exe_path) }
        match engine.CreateTarget full_exe_path with
        | .error lldb_error_cstr =>
          .ok (app, some { type := .TargetCreation,
                           msg := lldb_error_cstr.getD "Unknown target creation error!" })
        | .ok new_target =>
          let app := { app with debugger := app.debugger.addTarget new_target }
          let app := app.LOG .Debug
            ("Succesfully created target for executable: " ++ quoted full_exe_path)
          match engine.Launch new_target argv with
          | .error lldb_error_cstr =>
            let app := app.LOG .Error "Failed to launch process, destroying target..."
            let app := { app with debugger := app.debugger.DeleteTarget new_target }
            .ok (app, some { type := .Launch,
                             msg := lldb_error_cstr.getD "Unknown target launch error!" })
          | .ok process =>
            let app := { app with debugger := app.debugger.setProcess new_target process }
            let app := app.LOG .Debug
              ("Succesfully launched process for executable: " ++ quoted full_exe_path)
            if (attach_wait engine.GetState 0 0).2 then
              .ok (app, some { type := .AttachTimeout,
                               msg := "Took more than five seconds to attach to process, gave up!" })
            else
              let app := app.LOG .Debug
                ("Succesfully attached to process for executable: " ++ exe_filepath)
              let started := app.event_listener.start app.debugger
              let app := { app with event_listener := started.1, debugger := started.2 }
              if !delay_start then
                match get_process app with
                | .error c => .error c
                | .ok _ => .ok ({ app with debugger := app.debugger.Continue }, none)
              else
                .ok (app, none)

/-- The dialog the loop body builds for an exited process. -/
def exit_dialog_of (app : Application) : ExitDialog :=
  { process_name := "asdf",
    exit_code := SBProcess.GetExitStatus (SBTarget.GetProcess app.debugger.GetSelectedTarget) }

/-- The state the loop body of `tick` leaves for `event` when the
assertion of `get_process` holds. -/
def tick_event_state (app : Application) (event : SBEvent) : Application :=
  let app := app.LOG .Debug ("Found event with new state: " ++ StateAsCString event.state)
  if event.state = .eStateExited then
    { app with exit_dialog := some (exit_dialog_of app) }.LOG .Debug "Set exit dialog"
  else
    app

/-- The number of calls of `start` the listener has seen, from the ghost
history: `start` is the only function that stores `true` in the run flag,
and it does so once. -/
def LLDBEventListenerThread.starts (l : LLDBEventListenerThread) : Nat :=
  l.history.count (Effect.store_continue true)

/-! ## delete_current_targets -/

/-- `SBDebugger::GetTargetAtIndex`; invalid when the index is out of
range. -/
def SBDebugger.GetTargetAtIndex (debugger : SBDebugger) (index : Nat) : Option SBTarget :=
  debugger.targets[index]?

/-- The loop of `delete_current_targets` from index `i` on:
`for (i; i < GetNumTargets(); i++) DeleteTarget(GetTargetAtIndex(i))`.
The bound is read anew at every turn. -/
def delete_current_targets_from (debugger : SBDebugger) (i : Nat) : SBDebugger :=
  if h : i < debugger.GetNumTargets then
    match debugger.GetTargetAtIndex i with
    | some target => delete_current_targets_from (debugger.DeleteTarget target) (i + 1)
    | none => delete_current_targets_from debugger (i + 1)
  else
    debugger
termination_by debugger.GetNumTargets - i
decreasing_by
  · have hle : (debugger.DeleteTarget target).GetNumTargets ≤ debugger.GetNumTargets := by
      unfold SBDebugger.DeleteTarget SBDebugger.GetNumTargets
      exact List.length_filter_le _ _
    omega
  · omega

/-- `delete_current_targets`. -/
def delete_current_targets (app : Application) : Application :=
  { app with debugger := delete_current_targets_from app.debugger 0 }

/-! ## The breakpoint rows of draw -/

/-- One row of the Breakpoints tab: the labels of its two `Selectable`s and
whether each is drawn selected. -/
structure BreakpointRow where
  filename : String
  filename_selected : Bool
  line : String
  line_selected : Bool
  deriving DecidableEq, Repr

/-- What the enumeration of the breakpoints in `draw` works on: the rows
drawn so far, the static `selected_row`, the paths handed to
`manually_open_and_or_focus_file`, and the log. -/
structure BreakpointsPane where
  rows : List BreakpointRow
  selected_row : Int
  opened : List String
  log : List LogEntry
  deriving DecidableEq, Repr

/-- How `sprintf` with `%d` writes the `uint32_t` line: as an `int`. -/
def line_text (line : Nat) : String :=
  toString (if line % 4294967296 < 2147483648 then (line % 4294967296 : Int)
            else (line % 4294967296 : Int) - 4294967296)

/-- The body of the loop over the breakpoints in `draw`, for the breakpoint
at index `i`.  `build_string` turns a C string that may be null into a
`std::string` (it is defined outside the sources); `clicked i` is what
`ImGui::Selectable` returns for the file name of row `i` in this frame. -/
def draw_breakpoint_row (build_string : Option String → String) (clicked : Nat → Bool)
    (i : Nat) (breakpoint : SBBreakpoint) (pane : BreakpointsPane) : BreakpointsPane :=
  let location := breakpoint.GetLocationAtIndex 0
  let pane :=
    if location.isSome then pane
    else { pane with log := pane.log ++
      [{ level := .Error, message := "Invalid breakpoint location encountered!" }] }
  let address := SBBreakpointLocation.GetAddress location
  let pane :=
    if address.isSome then pane
    else { pane with log := pane.log ++
      [{ level := .Error, message := "Invalid lldb::SBAddress for breakpoint!" }] }
  let line_entry := SBAddress.GetLineEntry address
  let filename := build_string line_entry.filename
  let filename_selected := decide ((i : Int) = pane.selected_row)
  let pane :=
    if clicked i then
      let directory := build_string line_entry.directory ++ "/"
      let full_path := directory ++ filename
      { pane with opened := pane.opened ++ [full_path], selected_row := (i : Int) }
    else pane
  let line_buf := line_text line_entry.line
  { pane with rows := pane.rows ++
      [{ filename := filename, filename_selected := filename_selected,
         line := line_buf, line_selected := decide ((i : Int) = pane.selected_row) }] }

/-- The loop over the breakpoints in `draw`, from index `i` on, for the
breakpoints that are left. -/
def draw_breakpoint_rows_from (build_string : Option String → String) (clicked : Nat → Bool) :
    Nat → List SBBreakpoint → BreakpointsPane → BreakpointsPane
  | _, [], pane => pane
  | i, breakpoint :: rest, pane =>
    draw_breakpoint_rows_from build_string clicked (i + 1) rest
      (draw_breakpoint_row build_string clicked i breakpoint pane)

/-- The enumeration of the target's breakpoints in `draw`:
`for (i = 0; i < target.GetNumBreakpoints(); i++)` over
`target.GetBreakpointAtIndex(i)`.  An invalid target has no breakpoints. -/
def draw_breakpoints (build_string : Option String → String) (clicked : Nat → Bool)
    (target : Option SBTarget) (pane : BreakpointsPane) : BreakpointsPane :=
  match target with
  | some t => draw_breakpoint_rows_from build_string clicked 0 t.breakpoints pane
  | none => pane

/-- The breakpoints behind a target handle, in index order
(`GetBreakpointAtIndex`); an invalid target has none. -/
def SBTarget.breakpoints_of (target : Option SBTarget) : List SBBreakpoint :=
  match target with
  | some t => t.breakpoints
  | none => []

/-- Whether a breakpoint has a valid first location with a valid address. -/
def SBBreakpoint.has_valid_address (breakpoint : SBBreakpoint) : Bool :=
  (SBBreakpointLocation.GetAddress (breakpoint.GetLocationAtIndex 0)).isSome

/-- The error lines the loop body writes for a breakpoint. -/
def breakpoint_errors (breakpoint : SBBreakpoint) : List LogEntry :=
  (if (breakpoint.GetLocationAtIndex 0).isSome then []
   else [{ level := .Error, message := "Invalid breakpoint location encountered!" }]) ++
  (if breakpoint.has_valid_address then []
   else [{ level := .Error, message := "Invalid lldb::SBAddress for breakpoint!" }])

/-! ## Sample states -/

/-- A process called `name` that has exited with `exit_status`. -/
def exited_process (name : String) (exit_status : Int) : SBProcess :=
  { name := name, state := .eStateExited, exit_status := exit_status,
    broadcaster := { listeners := [] } }

/-- A debugger session with one target, selected, whose process is
`process`. -/
def session_of (process : SBProcess) : SBDebugger :=
  { listener := 0,
    targets := [{ id := 0, executable := process.name, process := some process, breakpoints := [],
                  next_breakpoint_id := 1, resolve := fun _ _ => [] }],
    selected := 0 }

/-- An application on `debugger` whose listener holds `events` in its queue
and whose exit dialog is `dialog`. -/
def application_of (debugger : SBDebugger) (events : EventQueue)
    (dialog : Option ExitDialog) : Application :=
  { debugger := debugger,
    event_listener := { LLDBEventListenerThread.ctor with m_events := events },
    exit_dialog := dialog,
    open_files := { focus := none },
    text_editor := { line_clicked := none, breakpoints := [] },
    breakpoints := { entries := [] },
    file_browser := none,
    log := [] }

/-- A process called `name` that is running. -/
def running_process (name : String) : SBProcess :=
  { name := name, state := .eStateRunning, exit_status := 0,
    broadcaster := { listeners := [] } }

/-- A listener that has been started once on a session with one running
process. -/
def started_listener : LLDBEventListenerThread :=
  (LLDBEventListenerThread.ctor.start (session_of (running_process "foo"))).1

/-- The session `started_listener` has been started on, after that start. -/
def started_session : SBDebugger :=
  (LLDBEventListenerThread.ctor.start (session_of (running_process "foo"))).2

/-- A file system in which every path is canonical and exists, nothing is
a directory, and every path has the parent `/`. -/
def plain_file_system : FileSystem :=
  { canonical := fun p => some p,
    path_exists := fun _ => true,
    is_directory := fun _ => false,
    has_parent_path := fun _ => true,
    parent_path := fun _ => "/",
    current_path := "/" }

/-- An engine that creates every target and launches every process, the
process reading `GetState n` at the `n`-th poll of the attach loop. -/
def willing_engine (GetState : Nat → StateType) : Engine :=
  { CreateTarget := fun path =>
      .ok { id := 0, executable := path, process := none, breakpoints := [],
            next_breakpoint_id := 1, resolve := fun _ _ => [] },
    Launch := fun target _ =>
      .ok { name := target.executable, state := .eStateAttaching, exit_status := 0,
            broadcaster := { listeners := [] } },
    GetState := GetState }

/-- A process that never leaves the Attaching state. -/
def always_attaching : Nat → StateType :=
  fun _ => .eStateAttaching

/-- A process that reads Attaching at the first 55 polls (5.5 seconds) and
Stopped from then on. -/
def attaching_for_5500_ms : Nat → StateType :=
  fun n => if n < 55 then .eStateAttaching else .eStateStopped

/-- An engine that refuses to create any target, with the error string
`cstr`. -/
def refusing_engine (cstr : Option String) : Engine :=
  { CreateTarget := fun _ => .error cstr,
    Launch := fun _ _ => .error cstr,
    GetState := fun _ => .eStateStopped }

/-- An engine that creates every target and fails to launch any process,
with the error string `cstr`. -/
def launch_failing_engine (cstr : Option String) : Engine :=
  { CreateTarget := fun path =>
      .ok { id := 0, executable := path, process := none, breakpoints := [],
            next_breakpoint_id := 1, resolve := fun _ _ => [] },
    Launch := fun _ _ => .error cstr,
    GetState := fun _ => .eStateStopped }

/-- A process that is Stopped from the first poll on. -/
def stopped_at_once : Nat → StateType :=
  fun _ => .eStateStopped

/-- A file system without any file: `fs::canonical` throws for every path
and no path exists. -/
def empty_file_system : FileSystem :=
  { canonical := fun _ => none,
    path_exists := fun _ => false,
    is_directory := fun _ => false,
    has_parent_path := fun _ => true,
    parent_path := fun _ => "/",
    current_path := "/" }

/-- A target without process and breakpoints, with identity `id`. -/
def bare_target (id : Nat) : SBTarget :=
  { id := id, executable := "/bin/foo", process := none, breakpoints := [],
    next_breakpoint_id := 1, resolve := fun _ _ => [] }

/-- A debugger session that holds the targets with the identities `ids`. -/
def session_with_targets (ids : List Nat) : SBDebugger :=
  { listener := 0, targets := ids.map bare_target, selected := 0 }

/-- A `build_string` that turns the null string into the empty one. -/
def null_to_empty (cstr : Option String) : String :=
  cstr.getD ""

/-- A breakpoint at `main.cpp:12` for which the engine has found no
location. -/
def pending_breakpoint : SBBreakpoint :=
  { id := 1, file := "/src/main.cpp", line := 12, locations := [] }

/-- A breakpoint at `main.cpp:7` with one location, at a valid address. -/
def resolved_breakpoint : SBBreakpoint :=
  { id := 2, file := "/src/main.cpp", line := 7,
    locations := [{ address := some { line_entry :=
      { filename := some "main.cpp", directory := some "/src", line := 7 } } }] }

/-- A target that holds `breakpoints`. -/
def target_with_breakpoints (breakpoints : List SBBreakpoint) : SBTarget :=
  { id := 0, executable := "/bin/foo", process := none, breakpoints := breakpoints,
    next_breakpoint_id := 3, resolve := fun _ _ => [] }

/-- The Breakpoints tab before any row is drawn, no row selected. -/
def empty_pane : BreakpointsPane :=
  { rows := [], selected_row := -1, opened := [], log := [] }

/-- Collaborators that do nothing: `draw` leaves its view as it is, the
breakpoint table is never changed and knows no markers. -/
def idle_collaborators : Collaborators :=
  { draw := fun v => .ok v,
    Synchronize := fun b _ => b,
    Get := fun _ _ => [] }

/-- An application on `debugger` with an empty event queue, the file
`/src/main.cpp` focused and `line_clicked` reported by the editor. -/
def clicked_application (debugger : SBDebugger) (line_clicked : Option Int) : Application :=
  { application_of debugger [] none with
    open_files := { focus := some { canonical_path := "/src/main.cpp" } },
    text_editor := { line_clicked := line_clicked, breakpoints := [5] } }

/-- A debugger session with one target, selected, that holds `breakpoints`
and resolves no source position. -/
def session_with_breakpoints (breakpoints : List SBBreakpoint) : SBDebugger :=
  { listener := 0, targets := [target_with_breakpoints breakpoints], selected := 0 }

/-- The queue `[Stopped, Running, Exited]`. -/
def stopped_running_exited : EventQueue :=
  [{ serial := 0, state := .eStateStopped }, { serial := 1, state := .eStateRunning },
   { serial := 2, state := .eStateExited }]

/-- The queue `[Stopped, Running]`. -/
def stopped_running : EventQueue :=
  [{ serial := 0, state := .eStateStopped }, { serial := 1, state := .eStateRunning }]

/-! ## Theorems -/

/-- The drain loop on an empty queue: one pop, which finds nothing. -/
theorem tick_drain_nil (app : Application) (h : app.event_listener.m_events = []) :
    tick_drain app = .ok (app, [none]) := by
  unfold tick_drain
  obtain ⟨d, l, x, o, t, b, fb, g⟩ := app
  obtain ⟨ml, mc, mt, me, hi⟩ := l
  simp only at h
  subst h
  simp [LLDBEventListenerThread.pop_event, EventQueue.pop]

/-- The drain loop on a non-empty queue: pop the head, run the loop body,
go on with the rest. -/
theorem tick_drain_cons (app : Application) (event : SBEvent) (rest : EventQueue)
    (h : app.event_listener.m_events = event :: rest) :
    tick_drain app =
      match tick_event (app.withEvents rest) event with
      | .error c => .error c
      | .ok app1 =>
        match tick_drain app1 with
        | .error c => .error c
        | .ok (app2, pops) => .ok (app2, some event :: pops) := by
  conv_lhs => unfold tick_drain
  obtain ⟨d, l, x, o, t, b, fb, g⟩ := app
  obtain ⟨ml, mc, mt, me, hi⟩ := l
  simp only at h
  subst h
  simp only [LLDBEventListenerThread.pop_event, EventQueue.pop, Application.withEvents]
  split <;> simp_all

/-- With at most one target the loop body does not stop the program. -/
theorem tick_event_ok (app : Application) (event : SBEvent)
    (h : app.debugger.GetNumTargets ≤ 1) :
    tick_event app event = .ok (tick_event_state app event) := by
  unfold tick_event tick_event_state get_process exit_dialog_of
  simp only [SBProcess.GetStateFromEvent, Application.LOG]
  by_cases hs : event.state = .eStateExited
  · simp [hs, h]
  · simp [hs]

/-- For an event that does not report an exit the loop body only logs. -/
theorem tick_event_other (app : Application) (event : SBEvent)
    (hs : event.state ≠ .eStateExited) :
    tick_event app event =
      .ok (app.LOG .Debug ("Found event with new state: " ++ StateAsCString event.state)) := by
  unfold tick_event
  simp [SBProcess.GetStateFromEvent, hs]

theorem tick_event_state_debugger (app : Application) (event : SBEvent) :
    (tick_event_state app event).debugger = app.debugger := by
  unfold tick_event_state
  simp only [Application.LOG]
  split <;> rfl

theorem tick_event_state_withEvents (app : Application) (event : SBEvent) (q : EventQueue) :
    tick_event_state (app.withEvents q) event = (tick_event_state app event).withEvents q := by
  unfold tick_event_state exit_dialog_of
  simp only [Application.LOG, Application.withEvents]
  split <;> rfl

theorem foldl_tick_event_state_debugger (q : EventQueue) (app : Application) :
    (q.foldl tick_event_state app).debugger = app.debugger := by
  induction q generalizing app with
  | nil => rfl
  | cons e rest ih => rw [List.foldl_cons, ih, tick_event_state_debugger]

theorem foldl_tick_event_state_withEvents (es : EventQueue) (app : Application) (q : EventQueue) :
    es.foldl tick_event_state (app.withEvents q) = (es.foldl tick_event_state app).withEvents q := by
  induction es generalizing app with
  | nil => rfl
  | cons e rest ih => rw [List.foldl_cons, List.foldl_cons, tick_event_state_withEvents, ih]

/-- Running the loop body over a list of events succeeds and gives the fold
of `tick_event_state`, when the debugger has at most one target or no event
reports an exit. -/
theorem foldlM_tick_event (q : EventQueue) (app : Application)
    (h : ∀ e ∈ q, e.state = .eStateExited → app.debugger.GetNumTargets ≤ 1) :
    List.foldlM tick_event app q = .ok (q.foldl tick_event_state app) := by
  induction q generalizing app with
  | nil => rfl
  | cons e rest ih =>
    have he : tick_event app e = .ok (tick_event_state app e) := by
      by_cases hs : e.state = .eStateExited
      · exact tick_event_ok app e (h e (List.mem_cons_self _ _) hs)
      · rw [tick_event_other app e hs]
        simp [tick_event_state, hs]
    rw [List.foldlM_cons, he, List.foldl_cons]
    apply ih
    intro x hx hxs
    rw [tick_event_state_debugger]
    exact h x (List.mem_cons_of_mem _ hx) hxs

/-- The drain loop returns, when the debugger has at most one target or no
event reports an exit: it has popped every event of the queue in order,
then the empty answer, and has run the loop body on each. -/
theorem tick_drain_eq (q : EventQueue) (app : Application)
    (hq : app.event_listener.m_events = q)
    (h : ∀ e ∈ q, e.state = .eStateExited → app.debugger.GetNumTargets ≤ 1) :
    tick_drain app = .ok ((q.foldl tick_event_state app).withEvents [], q.map some ++ [none]) := by
  induction q generalizing app with
  | nil =>
    rw [tick_drain_nil app hq]
    obtain ⟨d, l, x, o, t, b, fb, g⟩ := app
    obtain ⟨ml, mc, mt, me, hi⟩ := l
    simp only at hq
    subst hq
    rfl
  | cons e rest ih =>
    have he : tick_event (app.withEvents rest) e = .ok (tick_event_state (app.withEvents rest) e) := by
      by_cases hs : e.state = .eStateExited
      · exact tick_event_ok _ e (h e (List.mem_cons_self _ _) hs)
      · rw [tick_event_other _ e hs]
        simp [tick_event_state, hs]
    rw [tick_drain_cons app e rest hq, he]
    simp only
    have h1 : ∀ x ∈ rest, x.state = .eStateExited →
        (tick_event_state (app.withEvents rest) e).debugger.GetNumTargets ≤ 1 := by
      intro x hx hxs
      rw [tick_event_state_debugger]
      exact h x (List.mem_cons_of_mem _ hx) hxs
    have h2 : (tick_event_state (app.withEvents rest) e).event_listener.m_events = rest := by
      rw [tick_event_state_withEvents]; rfl
    rw [ih _ h2 h1]
    simp only [List.foldl_cons, List.map_cons, List.cons_append]
    rw [tick_event_state_withEvents, foldl_tick_event_state_withEvents]
    rfl

/-- The exit dialog after the loop body has run over a list of events: the
dialog of the exited process if one of them reports an exit, the old dialog
otherwise. -/
theorem foldl_tick_event_state_exit_dialog (q : EventQueue) (app : Application) :
    (q.foldl tick_event_state app).exit_dialog =
      if q.any (fun e => e.state = .eStateExited) then some (exit_dialog_of app)
      else app.exit_dialog := by
  induction q generalizing app with
  | nil => rfl
  | cons e rest ih =>
    rw [List.foldl_cons, ih]
    have hd : exit_dialog_of (tick_event_state app e) = exit_dialog_of app := by
      unfold exit_dialog_of
      rw [tick_event_state_debugger]
    rw [hd]
    by_cases hr : rest.any (fun e => decide (e.state = .eStateExited)) = true
    · simp [hr]
    · by_cases hs : e.state = .eStateExited
      · simp [hr, hs, tick_event_state, Application.LOG, exit_dialog_of]
      · simp [hr, hs, tick_event_state, Application.LOG]

/-- Nothing from the call of `draw` on writes the exit dialog. -/
theorem tick_render_exit_dialog (C : Collaborators) (app app2 : Application)
    (h : tick_render C app = .ok app2) : app2.exit_dialog = app.exit_dialog := by
  unfold tick_render at h
  split at h
  · cases h
  · simp only at h
    split at h
    · cases h
      unfold add_breakpoint_to_viewed_file
      simp only [Application.LOG, Application.withView]
      split
      · split <;> rfl
      · rfl
    · cases h
      rfl

/-- A list with an element that satisfies `P` splits at the last such
element. -/
theorem exists_last_split {α : Type} (P : α → Prop) (q : List α) (h : ∃ e ∈ q, P e) :
    ∃ pre e post, q = pre ++ e :: post ∧ P e ∧ ∀ x ∈ post, ¬ P x := by
  induction q with
  | nil => obtain ⟨e, he, _⟩ := h; cases he
  | cons a rest ih =>
    by_cases hr : ∃ e ∈ rest, P e
    · obtain ⟨pre, e, post, h1, h2, h3⟩ := ih hr
      exact ⟨a :: pre, e, post, by rw [h1]; rfl, h2, h3⟩
    · obtain ⟨e, he, hp⟩ := h
      rcases List.mem_cons.mp he with rfl | hmem
      · exact ⟨[], e, rest, rfl, hp, fun x hx hpx => hr ⟨x, hx, hpx⟩⟩
      · exact absurd ⟨e, hmem, hp⟩ hr

/-- C1. When `tick` starts with the events `e1..eN` in the listener's queue
(and nothing is pushed during the drain), its drain loop returns after
exactly `N+1` calls of `pop_event`, which answered `e1, .., eN` in push
order and then "no event"; the loop body has run on `e1..eN` in that order,
once each; and `draw` is invoked on a state whose queue is empty.  The
assertion of `get_process`, which the loop body reaches for an exited
event, is taken as hypothesis: the debugger has at most one target, or no
queued event reports an exit. -/
theorem tick_drains_queue_fifo (app : Application)
    (h : app.debugger.GetNumTargets ≤ 1 ∨
      ∀ e ∈ app.event_listener.m_events, e.state ≠ .eStateExited) :
    ∃ app1 : Application,
      tick_drain app = .ok (app1, app.event_listener.m_events.map some ++ [none]) ∧
      (app.event_listener.m_events.map some ++ [none]).length
        = app.event_listener.m_events.length + 1 ∧
      (∃ app2, List.foldlM tick_event app app.event_listener.m_events = .ok app2 ∧
        app1 = app2.withEvents []) ∧
      app1.event_listener.m_events = [] ∧
      ∀ C, tick C app = tick_render C app1 := by
  have hh : ∀ e ∈ app.event_listener.m_events, e.state = .eStateExited →
      app.debugger.GetNumTargets ≤ 1 := by
    intro e he hs
    rcases h with h | h
    · exact h
    · exact absurd hs (h e he)
  have hd := tick_drain_eq _ app rfl hh
  refine ⟨_, hd, by simp, ⟨_, foldlM_tick_event _ app hh, rfl⟩, rfl, ?_⟩
  intro C
  unfold tick
  rw [hd]

/-- C1, on the queue `[Stopped, Running, Exited]` with one target: four
pops, the events in push order, an empty queue at the end. -/
theorem tick_drains_queue_fifo_witness :
    (application_of (session_of (exited_process "foo" 42)) stopped_running_exited
        none).debugger.GetNumTargets ≤ 1 ∧
    ∃ app1 : Application,
      tick_drain (application_of (session_of (exited_process "foo" 42)) stopped_running_exited none)
        = .ok (app1, [some { serial := 0, state := .eStateStopped },
                      some { serial := 1, state := .eStateRunning },
                      some { serial := 2, state := .eStateExited }, none]) ∧
      app1.event_listener.m_events = [] :=
  ⟨by decide, by
    obtain ⟨app1, h1, _, _, h4, _⟩ :=
      tick_drains_queue_fifo
        (application_of (session_of (exited_process "foo" 42)) stopped_running_exited none)
        (Or.inl (by decide))
    exact ⟨app1, h1, h4⟩⟩

/-- C2, at the failing input: the process `foo` has exited with code 7 and
its exit event is in the queue.  The drain installs the dialog
`{process_name: "asdf", exit_code: 7}`, not `{process_name: "foo",
exit_code: 7}`: the exit code is the process's, the name is a constant. -/
theorem tick_exit_dialog_name_is_constant :
    ∃ app1 pops,
      tick_drain (application_of (session_of (exited_process "foo" 7))
          [{ serial := 0, state := .eStateExited }] none) = .ok (app1, pops) ∧
      app1.exit_dialog = some { process_name := "asdf", exit_code := 7 } ∧
      app1.exit_dialog ≠ some { process_name := "foo", exit_code := 7 } := by
  refine ⟨_, _, tick_drain_eq _ _ rfl (fun _ _ _ => by decide), ?_, ?_⟩
  · rfl
  · intro hne
    have h2 : (some { process_name := "asdf", exit_code := 7 } : Option ExitDialog)
        = some { process_name := "foo", exit_code := 7 } := hne
    simp at h2

/-- C3. When no event in the queue reports an exit (the empty queue
included), the drain of `tick` returns and leaves `exit_dialog` as it was,
present or absent, and so does the whole `tick` when it returns. -/
theorem tick_keeps_exit_dialog (app : Application)
    (h : ∀ e ∈ app.event_listener.m_events, e.state ≠ .eStateExited) :
    ∃ app1 pops,
      tick_drain app = .ok (app1, pops) ∧
      app1.exit_dialog = app.exit_dialog ∧
      ∀ C app2, tick C app = .ok app2 → app2.exit_dialog = app.exit_dialog := by
  have hh : ∀ e ∈ app.event_listener.m_events, e.state = .eStateExited →
      app.debugger.GetNumTargets ≤ 1 := fun e he hs => absurd hs (h e he)
  have hd := tick_drain_eq _ app rfl hh
  have hx : ((app.event_listener.m_events.foldl tick_event_state app).withEvents []).exit_dialog
      = app.exit_dialog := by
    have := foldl_tick_event_state_exit_dialog app.event_listener.m_events app
    have hany : app.event_listener.m_events.any (fun e => decide (e.state = .eStateExited))
        = false := by
      rw [List.any_eq_false]
      intro e he
      simpa using h e he
    rw [hany] at this
    simpa [Application.withEvents] using this
  refine ⟨_, _, hd, hx, ?_⟩
  intro C app2 ht
  unfold tick at ht
  rw [hd] at ht
  rw [tick_render_exit_dialog C _ app2 ht, hx]

/-- C3, on the queue `[Stopped, Running]` with the dialog `{foo, 7}`
installed: the dialog is still `{foo, 7}` after the drain. -/
theorem tick_keeps_exit_dialog_witness :
    (∀ e ∈ (application_of (session_of (exited_process "foo" 7)) stopped_running
        (some { process_name := "foo", exit_code := 7 })).event_listener.m_events,
      e.state ≠ .eStateExited) ∧
    ∃ app1 pops,
      tick_drain (application_of (session_of (exited_process "foo" 7)) stopped_running
        (some { process_name := "foo", exit_code := 7 })) = .ok (app1, pops) ∧
      app1.exit_dialog = some { process_name := "foo", exit_code := 7 } :=
  ⟨by decide, by
    obtain ⟨app1, pops, h1, h2, _⟩ :=
      tick_keeps_exit_dialog
        (application_of (session_of (exited_process "foo" 7)) stopped_running
          (some { process_name := "foo", exit_code := 7 }))
        (by decide)
    exact ⟨app1, pops, h1, h2⟩⟩

/-- The exit dialog is not written by events that do not report an exit. -/
theorem foldl_tick_event_state_no_exit (post : EventQueue) (app : Application)
    (h : ∀ e ∈ post, e.state ≠ .eStateExited) :
    (post.foldl tick_event_state app).exit_dialog = app.exit_dialog := by
  rw [foldl_tick_event_state_exit_dialog]
  have hany : post.any (fun e => decide (e.state = .eStateExited)) = false := by
    rw [List.any_eq_false]
    intro e he
    simpa using h e he
  simp [hany]

/-- C4. When the queue holds at least one event that reports an exit (and
the debugger has at most one target, as `get_process` asserts), the drain of
`tick` returns with an exit dialog present whose `exit_code` is the exit
status the engine reports for the process.  It is the dialog the loop body
installed when it handled the last exit event of the queue: no later event
writes it, and whatever was installed before is overwritten.  The whole
`tick`, when it returns, still holds that dialog. -/
theorem tick_exit_dialog_of_last_exit (app : Application)
    (h : app.debugger.GetNumTargets ≤ 1)
    (hex : ∃ e ∈ app.event_listener.m_events, e.state = .eStateExited) :
    ∃ app1 pops d,
      tick_drain app = .ok (app1, pops) ∧
      app1.exit_dialog = some d ∧
      d.exit_code = SBProcess.GetExitStatus (SBTarget.GetProcess app.debugger.GetSelectedTarget) ∧
      (∃ pre event post a_pre a_event,
        app.event_listener.m_events = pre ++ event :: post ∧
        event.state = .eStateExited ∧
        (∀ e ∈ post, e.state ≠ .eStateExited) ∧
        List.foldlM tick_event app pre = .ok a_pre ∧
        tick_event a_pre event = .ok a_event ∧
        a_event.exit_dialog = some d) ∧
      ∀ C app2, tick C app = .ok app2 → app2.exit_dialog = some d := by
  have hh : ∀ e ∈ app.event_listener.m_events, e.state = .eStateExited →
      app.debugger.GetNumTargets ≤ 1 := fun _ _ _ => h
  have hd := tick_drain_eq _ app rfl hh
  have hany : app.event_listener.m_events.any (fun e => decide (e.state = .eStateExited))
      = true := by
    rw [List.any_eq_true]
    obtain ⟨e, he, hs⟩ := hex
    exact ⟨e, he, by simpa using hs⟩
  have hx : ((app.event_listener.m_events.foldl tick_event_state app).withEvents []).exit_dialog
      = some (exit_dialog_of app) := by
    have := foldl_tick_event_state_exit_dialog app.event_listener.m_events app
    rw [hany] at this
    simpa [Application.withEvents] using this
  obtain ⟨pre, event, post, hsplit, hs, hpost⟩ :=
    exists_last_split (fun e : SBEvent => e.state = .eStateExited) _ hex
  refine ⟨_, _, exit_dialog_of app, hd, hx, rfl, ?_, ?_⟩
  · have hpd : (pre.foldl tick_event_state app).debugger.GetNumTargets ≤ 1 := by
      rw [foldl_tick_event_state_debugger]; exact h
    refine ⟨pre, event, post, _, _, hsplit, hs, hpost,
      foldlM_tick_event pre app (fun _ _ _ => h), tick_event_ok _ event hpd, ?_⟩
    have h1 : exit_dialog_of (pre.foldl tick_event_state app) = exit_dialog_of app := by
      unfold exit_dialog_of
      rw [foldl_tick_event_state_debugger]
    simp only [tick_event_state, hs, Application.LOG, if_true]
    exact congrArg some h1
  · intro C app2 ht
    unfold tick at ht
    rw [hd] at ht
    rw [tick_render_exit_dialog C _ app2 ht, hx]

/-- C4, on the queue `[Stopped, Running, Exited]` for a process that exited
with code 42, and with an older dialog holding code 1: after the drain the
dialog holds `exit_code == 42`. -/
theorem tick_exit_dialog_of_last_exit_witness :
    (application_of (session_of (exited_process "foo" 42)) stopped_running_exited
        (some { process_name := "bar", exit_code := 1 })).debugger.GetNumTargets ≤ 1 ∧
    (∃ e ∈ (application_of (session_of (exited_process "foo" 42)) stopped_running_exited
        (some { process_name := "bar", exit_code := 1 })).event_listener.m_events,
      e.state = .eStateExited) ∧
    ∃ app1 pops d,
      tick_drain (application_of (session_of (exited_process "foo" 42)) stopped_running_exited
        (some { process_name := "bar", exit_code := 1 })) = .ok (app1, pops) ∧
      app1.exit_dialog = some d ∧ d.exit_code = 42 :=
  ⟨by decide, ⟨{ serial := 2, state := .eStateExited }, by decide, rfl⟩, by
    obtain ⟨app1, pops, d, h1, h2, h3, _, _⟩ :=
      tick_exit_dialog_of_last_exit
        (application_of (session_of (exited_process "foo" 42)) stopped_running_exited
          (some { process_name := "bar", exit_code := 1 }))
        (by decide) ⟨{ serial := 2, state := .eStateExited }, by decide, rfl⟩
    exact ⟨app1, pops, d, h1, h2, h3⟩⟩

/-! ### The listener -/

/-- The selected target after a write through its handle. -/
theorem GetSelectedTarget_onSelectedTarget (debugger : SBDebugger) (f : SBTarget → SBTarget) :
    (debugger.onSelectedTarget f).GetSelectedTarget = debugger.GetSelectedTarget.map f := by
  unfold SBDebugger.onSelectedTarget SBDebugger.GetSelectedTarget
  cases h : debugger.targets[debugger.selected]? with
  | none => simp [h]
  | some t =>
    simp only [Option.map_some']
    rw [List.getElem?_set]
    have hlt : debugger.selected < debugger.targets.length := by
      rcases List.getElem?_eq_some.mp h with ⟨hlt, _⟩
      exact hlt
    simp [hlt]

/-- The broadcaster of the selected process after a write through its
handle. -/
theorem GetBroadcaster_onBroadcaster (debugger : SBDebugger)
    (f : SBBroadcaster → SBBroadcaster) (p : SBProcess)
    (hp : SBTarget.GetProcess debugger.GetSelectedTarget = some p) :
    SBProcess.GetBroadcaster (SBTarget.GetProcess (debugger.onBroadcaster f).GetSelectedTarget)
      = f p.broadcaster := by
  unfold SBDebugger.onBroadcaster
  rw [GetSelectedTarget_onSelectedTarget]
  cases ht : debugger.GetSelectedTarget with
  | none => simp [ht, SBTarget.GetProcess] at hp
  | some t =>
    simp only [ht, SBTarget.GetProcess] at hp
    simp [SBTarget.GetProcess, SBProcess.GetBroadcaster, hp]

/-- After `RemoveListener` the listener is not registered. -/
theorem RemoveListener_listens (b : SBBroadcaster) (n : Nat) :
    (b.RemoveListener (some n)).listens n = false := by
  unfold SBBroadcaster.RemoveListener SBBroadcaster.listens
  simp [List.any_eq_false]

/-- After `AddListener` the listener is registered, for a mask that holds
the bits asked for. -/
theorem AddListener_listens (b : SBBroadcaster) (n mask : Nat) :
    ∃ m, (n, m) ∈ (b.AddListener (some n) mask).listeners ∧ m &&& mask = mask := by
  unfold SBBroadcaster.AddListener
  by_cases h : b.listeners.any (fun p => p.1 == n) = true
  · simp only [h, if_true]
    rw [List.any_eq_true] at h
    obtain ⟨⟨a, m0⟩, hmem, ha⟩ := h
    simp only [beq_iff_eq] at ha
    subst ha
    refine ⟨m0 ||| mask, ?_, ?_⟩
    · rw [List.mem_map]
      exact ⟨(a, m0), hmem, by simp⟩
    · apply Nat.eq_of_testBit_eq
      intro i
      simp only [Nat.testBit_and, Nat.testBit_or]
      cases Nat.testBit m0 i <;> cases Nat.testBit mask i <;> rfl
  · simp only [h]
    refine ⟨mask, by simp, ?_⟩
    exact Nat.and_self mask

/-- The polling loop over waits that all time out, followed by a reading
`false` of the flag, pushes nothing and exits. -/
theorem poll_events_timeouts (n : Nat) (q : EventQueue) :
    LLDBEventListenerThread.poll_events
      (LLDBEventListenerThread.join_steps (List.replicate n none)) q = (q, true) := by
  unfold LLDBEventListenerThread.join_steps
  induction n with
  | zero => rfl
  | succ k ih =>
    simp only [List.replicate_succ, List.map_cons, List.cons_append,
      LLDBEventListenerThread.poll_events]
    exact ih

/-- The thread that `stop` joins leaves `poll_events`. -/
theorem poll_events_join_exits (pending : List (Option SBEvent)) (q : EventQueue) :
    (LLDBEventListenerThread.poll_events
      (LLDBEventListenerThread.join_steps pending) q).2 = true := by
  unfold LLDBEventListenerThread.join_steps
  induction pending generalizing q with
  | nil => rfl
  | cons w rest ih =>
    cases w with
    | none =>
      simp only [List.map_cons, List.cons_append, LLDBEventListenerThread.poll_events]
      exact ih q
    | some e =>
      simp only [List.map_cons, List.cons_append, LLDBEventListenerThread.poll_events]
      exact ih _

/-- What `stop` returns for a listener that holds a thread handle. -/
theorem stop_ok (pending : List (Option SBEvent))
    (l : LLDBEventListenerThread) (debugger : SBDebugger) (t : Thread)
    (h : l.m_thread = some t) :
    l.stop pending debugger = .ok
      ({ m_listener := none, m_continue := false, m_thread := none,
         m_events := (LLDBEventListenerThread.poll_events
           (LLDBEventListenerThread.join_steps pending) l.m_events).1,
         history := l.history ++
           [.store_continue false, .join_thread, .reset_thread,
            .remove_listener l.m_listener, .clear_listener,
            .log { level := .Debug,
                   message := "Successfully stopped LLDBEventListenerThread." }] },
       debugger.onBroadcaster (fun b => b.RemoveListener l.m_listener)) := by
  unfold LLDBEventListenerThread.stop
  simp [LLDBEventListenerThread.record, h]

/-- C5. For a listener that holds a thread handle, `stop` returns; it has
stored `false` in the run flag, joined the thread (which has left its
polling loop), reset the handle, and only then removed the listener from
the broadcaster of the selected process and cleared the listener reference.
On return the run flag is false, no thread handle is held, the listener
reference is invalid, and the listener is not registered on that
broadcaster. -/
theorem stop_joins_then_removes (pending : List (Option SBEvent))
    (l : LLDBEventListenerThread) (debugger : SBDebugger) (t : Thread)
    (h : l.m_thread = some t) :
    ∃ l1 debugger1,
      l.stop pending debugger = .ok (l1, debugger1) ∧
      l1.m_continue = false ∧
      l1.m_thread = none ∧
      l1.m_listener = none ∧
      (LLDBEventListenerThread.poll_events
        (LLDBEventListenerThread.join_steps pending) l.m_events).2 = true ∧
      l1.history = l.history ++
        [.store_continue false, .join_thread, .reset_thread, .remove_listener l.m_listener,
         .clear_listener,
         .log { level := .Debug, message := "Successfully stopped LLDBEventListenerThread." }] ∧
      debugger1 = debugger.onBroadcaster (fun b => b.RemoveListener l.m_listener) ∧
      ∀ n p, l.m_listener = some n →
        SBTarget.GetProcess debugger.GetSelectedTarget = some p →
        (SBProcess.GetBroadcaster
          (SBTarget.GetProcess debugger1.GetSelectedTarget)).listens n = false := by
  refine ⟨_, _, stop_ok pending l debugger t h, rfl, rfl, rfl,
    poll_events_join_exits pending l.m_events, rfl, rfl, ?_⟩
  intro n p hn hp
  rw [GetBroadcaster_onBroadcaster _ _ p hp, hn]
  exact RemoveListener_listens _ n

/-- C5, on a listener started once on a session with one running process. -/
theorem stop_joins_then_removes_witness :
    started_listener.m_thread = some { serial := 0 } ∧
    ∃ l1 debugger1,
      started_listener.stop [] started_session = .ok (l1, debugger1) ∧
      l1.m_continue = false ∧ l1.m_thread = none ∧ l1.m_listener = none ∧
      (SBProcess.GetBroadcaster
        (SBTarget.GetProcess debugger1.GetSelectedTarget)).listens 0 = false :=
  ⟨rfl, by
    obtain ⟨l1, debugger1, h1, h2, h3, h4, _, _, _, h8⟩ :=
      stop_joins_then_removes [] started_listener started_session { serial := 0 } rfl
    exact ⟨l1, debugger1, h1, h2, h3, h4, h8 0 _ rfl rfl⟩⟩

/-- C6. `start` on a listener that already holds a thread handle spawns no
thread: the handle is unchanged and so is the number of threads spawned (a
fresh listener started twice has spawned exactly one).  It still stores
`true` in the run flag and adds the debugger's listener to the broadcaster
of the selected process with the state-changed, stdout and stderr bits. -/
theorem start_again_spawns_no_thread (l : LLDBEventListenerThread) (debugger : SBDebugger)
    (t : Thread) (h : l.m_thread = some t) :
    (l.start debugger).1.m_thread = some t ∧
    (l.start debugger).1.threads_spawned = l.threads_spawned ∧
    (l.start debugger).1.m_continue = true ∧
    (l.start debugger).1.m_listener = debugger.GetListener ∧
    (l.start debugger).1.history = l.history ++
      [.add_listener debugger.GetListener
          (eBroadcastBitStateChanged ||| eBroadcastBitSTDOUT ||| eBroadcastBitSTDERR),
       .store_continue true,
       .log { level := .Debug, message := "Successfully launched LLDBEventListenerThread." }] ∧
    (l.start debugger).2 = debugger.onBroadcaster (fun b => b.AddListener debugger.GetListener
      (eBroadcastBitStateChanged ||| eBroadcastBitSTDOUT ||| eBroadcastBitSTDERR)) ∧
    (∀ p, SBTarget.GetProcess debugger.GetSelectedTarget = some p →
      ∃ m, (debugger.listener, m) ∈ (SBProcess.GetBroadcaster
            (SBTarget.GetProcess (l.start debugger).2.GetSelectedTarget)).listeners ∧
        m &&& (eBroadcastBitStateChanged ||| eBroadcastBitSTDOUT ||| eBroadcastBitSTDERR)
          = eBroadcastBitStateChanged ||| eBroadcastBitSTDOUT ||| eBroadcastBitSTDERR) ∧
    ∀ d1 d2 : SBDebugger,
      ((LLDBEventListenerThread.ctor.start d1).1.start d2).1.threads_spawned = 1 ∧
      ((LLDBEventListenerThread.ctor.start d1).1.start d2).1.m_thread = some { serial := 0 } := by
  have hs : (l.start debugger).1 =
      { m_listener := debugger.GetListener, m_continue := true, m_thread := some t,
        m_events := l.m_events,
        history := l.history ++
          [.add_listener debugger.GetListener LLDBEventListenerThread.listen_flags,
           .store_continue true,
           .log { level := .Debug,
                  message := "Successfully launched LLDBEventListenerThread." }] } := by
    unfold LLDBEventListenerThread.start
    simp [LLDBEventListenerThread.record, h]
  refine ⟨by rw [hs], ?_, by rw [hs], by rw [hs], by rw [hs]; rfl, rfl, ?_, ?_⟩
  · rw [hs]
    simp [LLDBEventListenerThread.threads_spawned, List.count_append]
  · intro p hp
    have hb : (l.start debugger).2 = debugger.onBroadcaster (fun b =>
        b.AddListener debugger.GetListener LLDBEventListenerThread.listen_flags) := rfl
    rw [hb, GetBroadcaster_onBroadcaster _ _ p hp]
    exact AddListener_listens p.broadcaster debugger.listener _
  · intro d1 d2
    refine ⟨?_, rfl⟩
    simp [LLDBEventListenerThread.threads_spawned, LLDBEventListenerThread.start,
      LLDBEventListenerThread.record, LLDBEventListenerThread.ctor, List.count_cons]

/-- C6, on a listener started once: the second `start` keeps thread 0. -/
theorem start_again_spawns_no_thread_witness :
    started_listener.m_thread = some { serial := 0 } ∧
    (started_listener.start started_session).1.m_thread = some { serial := 0 } ∧
    (started_listener.start started_session).1.threads_spawned = started_listener.threads_spawned ∧
    (started_listener.start started_session).1.m_continue = true :=
  ⟨rfl,
   (start_again_spawns_no_thread started_listener started_session { serial := 0 } rfl).1,
   (start_again_spawns_no_thread started_listener started_session { serial := 0 } rfl).2.1,
   (start_again_spawns_no_thread started_listener started_session { serial := 0 } rfl).2.2.1⟩

/-- C7. From a freshly constructed listener, `start` followed at once by
`stop`, with every engine wait of the background thread timing out (any
number `n` of them), returns the listener to its initial state: the queue
is empty, the run flag false, no thread handle is held and the listener
reference is invalid. -/
theorem start_stop_restores_initial (debugger : SBDebugger) (n : Nat) :
    LLDBEventListenerThread.ctor.m_events = [] ∧
    LLDBEventListenerThread.ctor.m_continue = false ∧
    LLDBEventListenerThread.ctor.m_thread = none ∧
    LLDBEventListenerThread.ctor.m_listener = none ∧
    ∃ l1 debugger1,
      (LLDBEventListenerThread.ctor.start debugger).1.stop (List.replicate n none)
        (LLDBEventListenerThread.ctor.start debugger).2 = .ok (l1, debugger1) ∧
      l1.m_events = [] ∧
      l1.m_continue = false ∧
      l1.m_thread = none ∧
      l1.m_listener = none := by
  refine ⟨rfl, rfl, rfl, rfl, ?_⟩
  refine ⟨_, _, stop_ok (List.replicate n none)
      (LLDBEventListenerThread.ctor.start debugger).1
      (LLDBEventListenerThread.ctor.start debugger).2 { serial := 0 } rfl, ?_, rfl, rfl, rfl⟩
  simp only
  rw [poll_events_timeouts]
  rfl

/-- C8. For a listener that holds no thread handle (never started, or
stopped before), `stop` does not return: after storing `false` in the run
flag it dereferences the null `m_thread` at the join.  At that point the
debugger, and with it every broadcaster, is as before the call, and the
history holds no removal of the listener.  The destructor of an
application on which no target was ever started stops in the same way. -/
theorem stop_without_thread_fails (pending : List (Option SBEvent))
    (l : LLDBEventListenerThread) (debugger : SBDebugger) (h : l.m_thread = none) :
    (∃ c, l.stop pending debugger = .error c ∧
      c.fault = .null_dereference ∧
      c.state.2 = debugger ∧
      c.state.1.history = l.history ++ [.store_continue false] ∧
      c.state.1.m_listener = l.m_listener) ∧
    ∀ listener : Nat,
      ∃ c, (Application.ctor listener).dtor pending = .error c ∧
        c.fault = .null_dereference ∧
        c.state.debugger = (Application.ctor listener).debugger := by
  constructor
  · refine ⟨{ fault := .null_dereference,
              state := ({ l with m_continue := false,
                                 history := l.history ++ [.store_continue false] },
                        debugger) }, ?_, rfl, rfl, rfl, rfl⟩
    unfold LLDBEventListenerThread.stop
    simp [LLDBEventListenerThread.record, h]
  · intro listener
    exact ⟨_, rfl, rfl, rfl⟩

/-- C8, on a freshly constructed listener. -/
theorem stop_without_thread_fails_witness :
    LLDBEventListenerThread.ctor.m_thread = none ∧
    ∃ c, LLDBEventListenerThread.ctor.stop [] (session_of (running_process "foo")) = .error c ∧
      c.fault = .null_dereference :=
  ⟨rfl, by
    obtain ⟨⟨c, h1, h2, _⟩, _⟩ :=
      stop_without_thread_fails [] LLDBEventListenerThread.ctor
        (session_of (running_process "foo")) rfl
    exact ⟨c, h1, h2⟩⟩

/-- The polling loop, step by step: the queue it leaves. -/
theorem poll_events_queue (steps : List (Bool × Option SBEvent)) (q : EventQueue) :
    (LLDBEventListenerThread.poll_events steps q).1 =
      q ++ (steps.takeWhile (fun s => s.1)).filterMap (fun s => s.2) := by
  induction steps generalizing q with
  | nil => simp [LLDBEventListenerThread.poll_events]
  | cons s rest ih =>
    obtain ⟨flag, w⟩ := s
    cases flag with
    | false => simp [LLDBEventListenerThread.poll_events]
    | true =>
      cases w with
      | none => simp [LLDBEventListenerThread.poll_events, ih]
      | some e => simp [LLDBEventListenerThread.poll_events, ih, EventQueue.push]

/-- The polling loop, step by step: whether it has exited. -/
theorem poll_events_exited (steps : List (Bool × Option SBEvent)) (q : EventQueue) :
    (LLDBEventListenerThread.poll_events steps q).2 = true ↔ ∃ s ∈ steps, s.1 = false := by
  induction steps generalizing q with
  | nil => simp [LLDBEventListenerThread.poll_events]
  | cons s rest ih =>
    obtain ⟨flag, w⟩ := s
    cases flag with
    | false => simp [LLDBEventListenerThread.poll_events]
    | true =>
      cases w with
      | none => simp [LLDBEventListenerThread.poll_events, ih]
      | some e => simp [LLDBEventListenerThread.poll_events, ih]

/-- The polling loop over more steps: nothing after the exit counts. -/
theorem poll_events_append (steps more : List (Bool × Option SBEvent)) (q : EventQueue) :
    LLDBEventListenerThread.poll_events (steps ++ more) q =
      if (LLDBEventListenerThread.poll_events steps q).2 then
        LLDBEventListenerThread.poll_events steps q
      else
        LLDBEventListenerThread.poll_events more
          (LLDBEventListenerThread.poll_events steps q).1 := by
  induction steps generalizing q with
  | nil => simp [LLDBEventListenerThread.poll_events]
  | cons s rest ih =>
    obtain ⟨flag, w⟩ := s
    cases flag with
    | false => simp [LLDBEventListenerThread.poll_events]
    | true =>
      cases w with
      | none =>
        simp only [List.cons_append, LLDBEventListenerThread.poll_events]
        exact ih q
      | some e =>
        simp only [List.cons_append, LLDBEventListenerThread.poll_events]
        exact ih _

/-- C9. For every run of `poll_events` over steps (reading of the run
flag, result of the engine wait), from any queue `q`: the queue afterwards
is `q` followed by the events of the successful waits made while the flag
read true (the steps before the first reading `false`), in the order
received, so a wait that timed out pushes nothing; the loop has exited
exactly if some reading was `false`; and whatever steps are offered after
the exit change nothing, so no push occurs after it. -/
theorem poll_events_pushes_received (steps : List (Bool × Option SBEvent)) (q : EventQueue) :
    (LLDBEventListenerThread.poll_events steps q).1 =
      q ++ (steps.takeWhile (fun s => s.1)).filterMap (fun s => s.2) ∧
    ((LLDBEventListenerThread.poll_events steps q).2 = true ↔ ∃ s ∈ steps, s.1 = false) ∧
    ∀ more : List (Bool × Option SBEvent),
      LLDBEventListenerThread.poll_events (steps ++ more) q =
        if (LLDBEventListenerThread.poll_events steps q).2 then
          LLDBEventListenerThread.poll_events steps q
        else
          LLDBEventListenerThread.poll_events more
            (LLDBEventListenerThread.poll_events steps q).1 :=
  ⟨poll_events_queue steps q, poll_events_exited steps q,
   fun more => poll_events_append steps more q⟩

/-! ### The attach loop -/

/-- The attach loop from poll `j`, entered with `100 * j` ms waited: it
gives up exactly if the process reads Attaching at every poll up to the
60th, and then 6000 ms have been waited. -/
theorem attach_wait_from (GetState : Nat → StateType) (d j : Nat) (hj : j + d = 59) :
    ((attach_wait GetState j (100 * j)).2 = true ↔
      ∀ k, j ≤ k → k < 60 → GetState k = .eStateAttaching) ∧
    ((attach_wait GetState j (100 * j)).2 = true →
      (attach_wait GetState j (100 * j)).1 = 6000) := by
  induction d generalizing j with
  | zero =>
    have hj59 : j = 59 := by omega
    subst hj59
    rw [attach_wait]
    by_cases hg : GetState 59 = .eStateAttaching
    · simp only [hg, if_true]
      constructor
      · constructor
        · intro _ k hk1 hk2
          have : k = 59 := by omega
          rw [this]; exact hg
        · intro _; rfl
      · intro _; rfl
    · simp only [hg, if_false]
      constructor
      · constructor
        · intro h; cases h
        · intro h; exact absurd (h 59 (le_refl _) (by omega)) hg
      · intro h; cases h
  | succ d ih =>
    have hlt : j ≤ 58 := by omega
    rw [attach_wait]
    by_cases hg : GetState j = .eStateAttaching
    · have hdiv : ¬ ((100 * j + 100) / 1000 > 5) := by omega
      simp only [hg, if_true, hdiv, dite_false]
      have hmul : 100 * j + 100 = 100 * (j + 1) := by ring
      rw [hmul]
      obtain ⟨ih1, ih2⟩ := ih (j + 1) (by omega)
      constructor
      · rw [ih1]
        constructor
        · intro h k hk1 hk2
          rcases Nat.eq_or_lt_of_le hk1 with heq | hlt2
          · rw [← heq]; exact hg
          · exact h k hlt2 hk2
        · intro h k hk1 hk2
          exact h k (by omega) hk2
      · exact ih2
    · simp only [hg, if_false]
      constructor
      · constructor
        · intro h; cases h
        · intro h; exact absurd (h j (le_refl _) (by omega)) hg
      · intro h; cases h

/-- The attach loop gives up exactly if the process reads Attaching at each
of the first 60 polls, that is once 6000 ms have been waited. -/
theorem attach_wait_timeout_iff (GetState : Nat → StateType) :
    ((attach_wait GetState 0 0).2 = true ↔ ∀ k < 60, GetState k = .eStateAttaching) ∧
    ((attach_wait GetState 0 0).2 = true → (attach_wait GetState 0 0).1 = 6000) := by
  obtain ⟨h1, h2⟩ := attach_wait_from GetState 59 0 (by omega)
  refine ⟨?_, h2⟩
  rw [show (0 : Nat) = 100 * 0 from rfl, h1]
  constructor
  · intro h k hk; exact h k (Nat.zero_le _) hk
  · intro h k _ hk; exact h k hk

/-- The attach loop on a process that never leaves Attaching. -/
theorem attach_wait_always_attaching : attach_wait always_attaching 0 0 = (6000, true) := by
  obtain ⟨h1, h2⟩ := attach_wait_timeout_iff always_attaching
  have ht : (attach_wait always_attaching 0 0).2 = true := h1.mpr (fun _ _ => rfl)
  exact Prod.ext (h2 ht) ht

/-- The attach loop from poll `j` on a process that reads Attaching until
poll 55. -/
theorem attach_wait_5500_from (d j : Nat) (hj : j + d = 55) :
    attach_wait attaching_for_5500_ms j (100 * j) = (5500, false) := by
  induction d generalizing j with
  | zero =>
    have : j = 55 := by omega
    subst this
    rw [attach_wait]
    simp [attaching_for_5500_ms]
  | succ d ih =>
    have hlt : j < 55 := by omega
    rw [attach_wait]
    have hg : attaching_for_5500_ms j = .eStateAttaching := by
      simp [attaching_for_5500_ms, hlt]
    have hdiv : ¬ ((100 * j + 100) / 1000 > 5) := by omega
    simp only [hg, if_true, hdiv, dite_false]
    have hmul : 100 * j + 100 = 100 * (j + 1) := by ring
    rw [hmul]
    exact ih (j + 1) (by omega)

/-- C10, at the failing inputs.  A process that never leaves Attaching
makes the attach loop give up when 6000 ms have been waited (60 polls), not
at 5100 ms; a process that stays Attaching for 5500 ms, which is more than
five seconds, and then stops makes the loop end without giving up, and
`create_new_target` returns no error for it, while it returns AttachTimeout
for the first. -/
theorem attach_timeout_after_six_seconds :
    attach_wait always_attaching 0 0 = (6000, true) ∧
    attach_wait attaching_for_5500_ms 0 0 = (5500, false) ∧
    (∃ app1, create_new_target plain_file_system (willing_engine attaching_for_5500_ms)
        (Application.ctor 0) "/bin/foo" [] true none = .ok (app1, none)) ∧
    (∃ app1, create_new_target plain_file_system (willing_engine always_attaching)
        (Application.ctor 0) "/bin/foo" [] true none =
          .ok (app1, some { type := .AttachTimeout,
                            msg := "Took more than five seconds to attach to process, gave up!" })) := by
  have h2 : attach_wait attaching_for_5500_ms 0 0 = (5500, false) :=
    attach_wait_5500_from 55 0 (by omega)
  refine ⟨attach_wait_always_attaching, h2, ?_, ?_⟩
  · unfold create_new_target
    simp [plain_file_system, willing_engine, Application.ctor, SBDebugger.GetNumTargets, h2]
  · unfold create_new_target
    simp [plain_file_system, willing_engine, Application.ctor, SBDebugger.GetNumTargets,
      attach_wait_always_attaching]

/-! ### create_new_target, path by path -/

/-- The debugger already has a target. -/
theorem create_new_target_has_target (fs : FileSystem) (engine : Engine) (app : Application)
    (exe_filepath : String) (argv : List String) (delay_start : Bool) (workdir : Option String)
    (h0 : app.debugger.GetNumTargets > 0) :
    create_new_target fs engine app exe_filepath argv delay_start workdir =
      .ok (app, some { type := .HasTargetAlready,
                       msg := "Multiple targets not yet supported by lldbg." }) := by
  unfold create_new_target
  simp [h0]

/-- No target yet, and `fs::canonical` throws. -/
theorem create_new_target_throws (fs : FileSystem) (engine : Engine) (app : Application)
    (exe_filepath : String) (argv : List String) (delay_start : Bool) (workdir : Option String)
    (h0 : app.debugger.GetNumTargets = 0) (hc : fs.canonical exe_filepath = none) :
    create_new_target fs engine app exe_filepath argv delay_start workdir =
      .error { fault := .uncaught_exception, state := app } := by
  unfold create_new_target
  simp [h0, hc]

/-- No target yet, the canonical path is found not to exist. -/
theorem create_new_target_missing (fs : FileSystem) (engine : Engine) (app : Application)
    (exe_filepath : String) (argv : List String) (delay_start : Bool) (workdir : Option String)
    (p : String)
    (h0 : app.debugger.GetNumTargets = 0) (hc : fs.canonical exe_filepath = some p)
    (he : fs.path_exists p = false) :
    create_new_target fs engine app exe_filepath argv delay_start workdir =
      .ok (app, some { type := .ExecutableDoesNotExist,
                       msg := "Requested executable does not exist: " ++ p }) := by
  unfold create_new_target
  simp [h0, hc, he]

/-- The engine fails to create the target. -/
theorem create_new_target_creation (fs : FileSystem) (engine : Engine) (app : Application)
    (exe_filepath : String) (argv : List String) (delay_start : Bool) (workdir : Option String)
    (p : String) (cstr : Option String)
    (h0 : app.debugger.GetNumTargets = 0) (hc : fs.canonical exe_filepath = some p)
    (he : fs.path_exists p = true) (hct : engine.CreateTarget p = .error cstr) :
    ∃ app1,
      create_new_target fs engine app exe_filepath argv delay_start workdir =
        .ok (app1, some { type := .TargetCreation,
                          msg := cstr.getD "Unknown target creation error!" }) ∧
      app1.event_listener = app.event_listener ∧
      app1.debugger = app.debugger := by
  unfold create_new_target
  rw [if_neg (by omega)]
  simp only [hc, he, hct, Bool.not_true, Bool.false_eq_true, ↓reduceIte]
  exact ⟨_, rfl, rfl, rfl⟩

/-- The engine creates the target and fails to launch the process. -/
theorem create_new_target_launch (fs : FileSystem) (engine : Engine) (app : Application)
    (exe_filepath : String) (argv : List String) (delay_start : Bool) (workdir : Option String)
    (p : String) (t : SBTarget) (cstr : Option String)
    (h0 : app.debugger.GetNumTargets = 0) (hc : fs.canonical exe_filepath = some p)
    (he : fs.path_exists p = true) (hct : engine.CreateTarget p = .ok t)
    (hl : engine.Launch t argv = .error cstr) :
    ∃ app1,
      create_new_target fs engine app exe_filepath argv delay_start workdir =
        .ok (app1, some { type := .Launch,
                          msg := cstr.getD "Unknown target launch error!" }) ∧
      app1.event_listener = app.event_listener ∧
      app1.debugger = (app.debugger.addTarget t).DeleteTarget t := by
  unfold create_new_target
  rw [if_neg (by omega)]
  simp only [hc, he, hct, hl, Bool.not_true, Bool.false_eq_true, ↓reduceIte]
  exact ⟨_, rfl, rfl, rfl⟩

/-- Target and process are there, and the attach loop gives up. -/
theorem create_new_target_timeout (fs : FileSystem) (engine : Engine) (app : Application)
    (exe_filepath : String) (argv : List String) (delay_start : Bool) (workdir : Option String)
    (p : String) (t : SBTarget) (process : SBProcess)
    (h0 : app.debugger.GetNumTargets = 0) (hc : fs.canonical exe_filepath = some p)
    (he : fs.path_exists p = true) (hct : engine.CreateTarget p = .ok t)
    (hl : engine.Launch t argv = .ok process)
    (hw : (attach_wait engine.GetState 0 0).2 = true) :
    ∃ app1,
      create_new_target fs engine app exe_filepath argv delay_start workdir =
        .ok (app1, some { type := .AttachTimeout,
                          msg := "Took more than five seconds to attach to process, gave up!" }) ∧
      app1.event_listener = app.event_listener ∧
      app1.debugger = (app.debugger.addTarget t).setProcess t process := by
  unfold create_new_target
  rw [if_neg (by omega)]
  simp only [hc, he, hct, hl, hw, Bool.not_true, Bool.false_eq_true, ↓reduceIte]
  exact ⟨_, rfl, rfl, rfl⟩

/-- A write through the handle of the selected target keeps the number of
targets. -/
theorem GetNumTargets_onSelectedTarget (debugger : SBDebugger) (f : SBTarget → SBTarget) :
    (debugger.onSelectedTarget f).GetNumTargets = debugger.GetNumTargets := by
  unfold SBDebugger.onSelectedTarget SBDebugger.GetNumTargets
  split
  · simp
  · rfl

/-- `start` keeps the number of targets. -/
theorem GetNumTargets_start (l : LLDBEventListenerThread) (debugger : SBDebugger) :
    (l.start debugger).2.GetNumTargets = debugger.GetNumTargets := by
  unfold LLDBEventListenerThread.start SBDebugger.onBroadcaster
  exact GetNumTargets_onSelectedTarget _ _

/-- A fresh target with its process makes one target. -/
theorem GetNumTargets_setProcess_addTarget (debugger : SBDebugger) (t : SBTarget)
    (process : SBProcess) (h0 : debugger.GetNumTargets = 0) :
    ((debugger.addTarget t).setProcess t process).GetNumTargets = 1 := by
  unfold SBDebugger.GetNumTargets at *
  simp [SBDebugger.setProcess, SBDebugger.addTarget, h0]

/-- Target and process are there and the process leaves Attaching in time:
the listener is started and no error is returned. -/
theorem create_new_target_success (fs : FileSystem) (engine : Engine) (app : Application)
    (exe_filepath : String) (argv : List String) (delay_start : Bool) (workdir : Option String)
    (p : String) (t : SBTarget) (process : SBProcess)
    (h0 : app.debugger.GetNumTargets = 0) (hc : fs.canonical exe_filepath = some p)
    (he : fs.path_exists p = true) (hct : engine.CreateTarget p = .ok t)
    (hl : engine.Launch t argv = .ok process)
    (hw : (attach_wait engine.GetState 0 0).2 = false) :
    ∃ app1,
      create_new_target fs engine app exe_filepath argv delay_start workdir = .ok (app1, none) ∧
      app1.event_listener =
        (app.event_listener.start ((app.debugger.addTarget t).setProcess t process)).1 ∧
      app1.debugger.GetNumTargets = 1 := by
  have h1 := GetNumTargets_setProcess_addTarget app.debugger t process h0
  have h2 : (app.event_listener.start
      ((app.debugger.addTarget t).setProcess t process)).2.GetNumTargets = 1 := by
    rw [GetNumTargets_start]; exact h1
  unfold create_new_target
  rw [if_neg (by omega)]
  simp only [hc, he, hct, hl, hw, Bool.not_true, Bool.false_eq_true, ↓reduceIte]
  cases delay_start with
  | true =>
    simp only [Bool.not_true, Bool.false_eq_true, ↓reduceIte]
    exact ⟨_, rfl, rfl, h2⟩
  | false =>
    simp only [Bool.not_false, ↓reduceIte, get_process, Application.LOG]
    rw [if_pos (by rw [h2])]
    refine ⟨_, rfl, rfl, ?_⟩
    simp only [SBDebugger.Continue]
    rw [GetNumTargets_onSelectedTarget]
    exact h2

/-- A string with a non-empty front is not empty. -/
theorem append_ne_empty (a b : String) (ha : a ≠ "") : a ++ b ≠ "" := by
  intro h
  have hl := congrArg String.length h
  rw [String.length_append] at hl
  have ha0 : a.length = 0 := by
    have : ("" : String).length = 0 := rfl
    omega
  apply ha
  apply String.ext
  exact List.length_eq_zero.mp ha0

/-- The message built from an engine error string is not empty when the
engine's strings are not. -/
theorem getD_ne_empty (cstr : Option String) (fallback : String) (hf : fallback ≠ "")
    (hs : ∀ s, cstr = some s → s ≠ "") : cstr.getD fallback ≠ "" := by
  cases cstr with
  | none => exact hf
  | some s => exact hs s rfl

/-- C11. Every error `create_new_target` returns carries a non-empty
message, the engine's error strings being non-empty where they are not
null, and a kind that names the first step that failed: HasTargetAlready
when the debugger already has a target; otherwise TargetCreation when
`CreateTarget` fails, Launch when `Launch` fails, AttachTimeout when the
attach loop gives up.  In each of these cases the function does return that
error.  The kinds are pairwise distinct. -/
theorem create_new_target_errors_typed (fs : FileSystem) (engine : Engine) (app : Application)
    (exe_filepath : String) (argv : List String) (delay_start : Bool) (workdir : Option String)
    (hengine : (∀ p s, engine.CreateTarget p = .error (some s) → s ≠ "") ∧
      (∀ t a s, engine.Launch t a = .error (some s) → s ≠ "")) :
    (∀ app1 err,
      create_new_target fs engine app exe_filepath argv delay_start workdir
        = .ok (app1, some err) → err.msg ≠ "") ∧
    (app.debugger.GetNumTargets > 0 →
      ∃ app1 err,
        create_new_target fs engine app exe_filepath argv delay_start workdir
          = .ok (app1, some err) ∧ err.type = .HasTargetAlready) ∧
    (∀ p cstr, app.debugger.GetNumTargets = 0 → fs.canonical exe_filepath = some p →
      fs.path_exists p = true → engine.CreateTarget p = .error cstr →
      ∃ app1 err,
        create_new_target fs engine app exe_filepath argv delay_start workdir
          = .ok (app1, some err) ∧ err.type = .TargetCreation) ∧
    (∀ p t cstr, app.debugger.GetNumTargets = 0 → fs.canonical exe_filepath = some p →
      fs.path_exists p = true → engine.CreateTarget p = .ok t →
      engine.Launch t argv = .error cstr →
      ∃ app1 err,
        create_new_target fs engine app exe_filepath argv delay_start workdir
          = .ok (app1, some err) ∧ err.type = .Launch) ∧
    (∀ p t process, app.debugger.GetNumTargets = 0 → fs.canonical exe_filepath = some p →
      fs.path_exists p = true → engine.CreateTarget p = .ok t →
      engine.Launch t argv = .ok process → (attach_wait engine.GetState 0 0).2 = true →
      ∃ app1 err,
        create_new_target fs engine app exe_filepath argv delay_start workdir
          = .ok (app1, some err) ∧ err.type = .AttachTimeout) ∧
    (TargetStartError.Type.HasTargetAlready ≠ .TargetCreation ∧
      TargetStartError.Type.HasTargetAlready ≠ .Launch ∧
      TargetStartError.Type.HasTargetAlready ≠ .AttachTimeout ∧
      TargetStartError.Type.TargetCreation ≠ .Launch ∧
      TargetStartError.Type.TargetCreation ≠ .AttachTimeout ∧
      TargetStartError.Type.Launch ≠ .AttachTimeout) := by
  refine ⟨?_, ?_, ?_, ?_, ?_, by decide⟩
  · intro app1 err hret
    by_cases h0 : app.debugger.GetNumTargets > 0
    · rw [create_new_target_has_target _ _ _ _ _ _ _ h0] at hret
      cases hret
      decide
    · have h0 : app.debugger.GetNumTargets = 0 := by omega
      cases hc : fs.canonical exe_filepath with
      | none =>
        rw [create_new_target_throws _ _ _ _ _ _ _ h0 hc] at hret
        cases hret
      | some p =>
        cases he : fs.path_exists p with
        | false =>
          rw [create_new_target_missing _ _ _ _ _ _ _ p h0 hc he] at hret
          cases hret
          exact append_ne_empty _ _ (by decide)
        | true =>
          cases hct : engine.CreateTarget p with
          | error cstr =>
            obtain ⟨a, ha, _⟩ := create_new_target_creation _ _ _ _ argv delay_start workdir
              p cstr h0 hc he hct
            rw [ha] at hret
            cases hret
            exact getD_ne_empty _ _ (by decide) (fun s hs => hengine.1 p s (by rw [hct, hs]))
          | ok t =>
            cases hl : engine.Launch t argv with
            | error cstr =>
              obtain ⟨a, ha, _⟩ := create_new_target_launch _ _ _ _ argv delay_start workdir
                p t cstr h0 hc he hct hl
              rw [ha] at hret
              cases hret
              exact getD_ne_empty _ _ (by decide) (fun s hs => hengine.2 t argv s (by rw [hl, hs]))
            | ok process =>
              cases hw : (attach_wait engine.GetState 0 0).2 with
              | true =>
                obtain ⟨a, ha, _⟩ := create_new_target_timeout _ _ _ _ argv delay_start workdir
                  p t process h0 hc he hct hl hw
                rw [ha] at hret
                cases hret
                decide
              | false =>
                obtain ⟨a, ha, _⟩ := create_new_target_success _ _ _ _ argv delay_start workdir
                  p t process h0 hc he hct hl hw
                rw [ha] at hret
                cases hret
  · intro h0
    exact ⟨_, _, create_new_target_has_target _ _ _ _ _ _ _ h0, rfl⟩
  · intro p cstr h0 hc he hct
    obtain ⟨a, ha, _⟩ := create_new_target_creation _ _ _ _ argv delay_start workdir
      p cstr h0 hc he hct
    exact ⟨a, _, ha, rfl⟩
  · intro p t cstr h0 hc he hct hl
    obtain ⟨a, ha, _⟩ := create_new_target_launch _ _ _ _ argv delay_start workdir
      p t cstr h0 hc he hct hl
    exact ⟨a, _, ha, rfl⟩
  · intro p t process h0 hc he hct hl hw
    obtain ⟨a, ha, _⟩ := create_new_target_timeout _ _ _ _ argv delay_start workdir
      p t process h0 hc he hct hl hw
    exact ⟨a, _, ha, rfl⟩

/-- C11, on an engine that refuses every target with the string
`unable to create target`: the error returned has kind TargetCreation and a
non-empty message. -/
theorem create_new_target_errors_typed_witness :
    ((∀ p s, (refusing_engine (some "unable to create target")).CreateTarget p
        = .error (some s) → s ≠ "") ∧
      (∀ t a s, (refusing_engine (some "unable to create target")).Launch t a
        = .error (some s) → s ≠ "")) ∧
    ∃ app1 err,
      create_new_target plain_file_system (refusing_engine (some "unable to create target"))
        (Application.ctor 0) "/bin/foo" [] true none = .ok (app1, some err) ∧
      err.type = .TargetCreation ∧ err.msg ≠ "" := by
  have hengine : (∀ p s, (refusing_engine (some "unable to create target")).CreateTarget p
        = .error (some s) → s ≠ "") ∧
      (∀ t a s, (refusing_engine (some "unable to create target")).Launch t a
        = .error (some s) → s ≠ "") := by
    constructor
    · intro p s h
      simp only [refusing_engine, Except.error.injEq, Option.some.injEq] at h
      rw [← h]; decide
    · intro t a s h
      simp only [refusing_engine, Except.error.injEq, Option.some.injEq] at h
      rw [← h]; decide
  refine ⟨hengine, ?_⟩
  have hthm := create_new_target_errors_typed plain_file_system
    (refusing_engine (some "unable to create target")) (Application.ctor 0) "/bin/foo" [] true
    none hengine
  obtain ⟨app1, err, h1, h2⟩ := hthm.2.2.1 "/bin/foo" (some "unable to create target")
    rfl rfl rfl rfl
  exact ⟨app1, err, h1, h2, hthm.1 app1 err h1⟩

/-- One call of `start` is one more start in the history. -/
theorem starts_start (l : LLDBEventListenerThread) (debugger : SBDebugger) :
    (l.start debugger).1.starts = l.starts + 1 := by
  unfold LLDBEventListenerThread.start LLDBEventListenerThread.starts
  cases h : l.m_thread <;>
    simp [LLDBEventListenerThread.record, h, List.count_append, List.count_cons]

/-- C12. `create_new_target` ends in exactly one of three ways.  It returns
no error: then target creation and process launch have succeeded, the
attach loop has ended with the process out of the Attaching state, and
`event_listener.start` has been called exactly once, on the debugger that
holds the new target and process.  Or it returns an error: then the
listener is as before the call, `start` has not been called.  Or it is
left by the exception of `fs::canonical`, again with the listener as
before. -/
theorem create_new_target_starts_listener_once (fs : FileSystem) (engine : Engine)
    (app : Application) (exe_filepath : String) (argv : List String) (delay_start : Bool)
    (workdir : Option String) :
    (∃ app1 p t process,
      create_new_target fs engine app exe_filepath argv delay_start workdir = .ok (app1, none) ∧
      app.debugger.GetNumTargets = 0 ∧
      fs.canonical exe_filepath = some p ∧
      engine.CreateTarget p = .ok t ∧
      engine.Launch t argv = .ok process ∧
      (attach_wait engine.GetState 0 0).2 = false ∧
      app1.event_listener =
        (app.event_listener.start ((app.debugger.addTarget t).setProcess t process)).1 ∧
      app1.event_listener.starts = app.event_listener.starts + 1) ∨
    (∃ app1 err,
      create_new_target fs engine app exe_filepath argv delay_start workdir
        = .ok (app1, some err) ∧
      app1.event_listener = app.event_listener ∧
      app1.event_listener.starts = app.event_listener.starts) ∨
    (∃ c,
      create_new_target fs engine app exe_filepath argv delay_start workdir = .error c ∧
      c.state.event_listener = app.event_listener) := by
  by_cases h0 : app.debugger.GetNumTargets > 0
  · exact Or.inr (Or.inl ⟨_, _, create_new_target_has_target _ _ _ _ _ _ _ h0, rfl, rfl⟩)
  · have h0 : app.debugger.GetNumTargets = 0 := by omega
    cases hc : fs.canonical exe_filepath with
    | none => exact Or.inr (Or.inr ⟨_, create_new_target_throws _ _ _ _ _ _ _ h0 hc, rfl⟩)
    | some p =>
      cases he : fs.path_exists p with
      | false =>
        exact Or.inr (Or.inl ⟨_, _, create_new_target_missing _ _ _ _ _ _ _ p h0 hc he, rfl, rfl⟩)
      | true =>
        cases hct : engine.CreateTarget p with
        | error cstr =>
          obtain ⟨a, ha, hl, _⟩ := create_new_target_creation _ _ _ _ argv delay_start workdir
            p cstr h0 hc he hct
          exact Or.inr (Or.inl ⟨a, _, ha, hl, by rw [hl]⟩)
        | ok t =>
          cases hl : engine.Launch t argv with
          | error cstr =>
            obtain ⟨a, ha, hli, _⟩ := create_new_target_launch _ _ _ _ argv delay_start workdir
              p t cstr h0 hc he hct hl
            exact Or.inr (Or.inl ⟨a, _, ha, hli, by rw [hli]⟩)
          | ok process =>
            cases hw : (attach_wait engine.GetState 0 0).2 with
            | true =>
              obtain ⟨a, ha, hli, _⟩ := create_new_target_timeout _ _ _ _ argv delay_start
                workdir p t process h0 hc he hct hl hw
              exact Or.inr (Or.inl ⟨a, _, ha, hli, by rw [hli]⟩)
            | false =>
              obtain ⟨a, ha, hli, _⟩ := create_new_target_success _ _ _ _ argv delay_start
                workdir p t process h0 hc he hct hl hw
              exact Or.inl ⟨a, p, t, process, ha, h0, rfl, hct, hl, rfl, hli,
                by rw [hli, starts_start]⟩

/-- C15, at the failing input: no target, an existing executable, an
engine that creates the target and launches a process that never leaves
Attaching.  `create_new_target` returns AttachTimeout and leaves one target
in the debugger where there was none, and the next call, whatever the
engine would do, returns HasTargetAlready.  The return for a failed launch
does delete the target it created: the count is 0 as before. -/
theorem attach_timeout_leaves_target :
    (Application.ctor 0).debugger.GetNumTargets = 0 ∧
    (∃ app1,
      create_new_target plain_file_system (willing_engine always_attaching)
        (Application.ctor 0) "/bin/foo" [] true none =
          .ok (app1, some { type := .AttachTimeout,
                            msg := "Took more than five seconds to attach to process, gave up!" }) ∧
      app1.debugger.GetNumTargets = 1 ∧
      create_new_target plain_file_system (willing_engine stopped_at_once)
        app1 "/bin/foo" [] true none =
          .ok (app1, some { type := .HasTargetAlready,
                            msg := "Multiple targets not yet supported by lldbg." })) ∧
    (∃ app1,
      create_new_target plain_file_system (launch_failing_engine none)
        (Application.ctor 0) "/bin/foo" [] true none =
          .ok (app1, some { type := .Launch, msg := "Unknown target launch error!" }) ∧
      app1.debugger.GetNumTargets = 0) := by
  refine ⟨rfl, ?_, ?_⟩
  · obtain ⟨app1, h1, _, h3⟩ := create_new_target_timeout plain_file_system
      (willing_engine always_attaching) (Application.ctor 0) "/bin/foo" [] true none
      "/bin/foo" _ _ rfl rfl rfl rfl rfl
      (by rw [show (willing_engine always_attaching).GetState = always_attaching from rfl,
            attach_wait_always_attaching])
    have hn : app1.debugger.GetNumTargets = 1 := by
      rw [h3]
      exact GetNumTargets_setProcess_addTarget _ _ _ rfl
    exact ⟨app1, h1, hn,
      create_new_target_has_target _ _ _ _ _ _ _ (by rw [hn]; exact Nat.one_pos)⟩
  · obtain ⟨app1, h1, _, h3⟩ := create_new_target_launch plain_file_system
      (launch_failing_engine none) (Application.ctor 0) "/bin/foo" [] true none
      "/bin/foo" _ none rfl rfl rfl rfl rfl
    refine ⟨app1, h1, ?_⟩
    rw [h3]
    rfl

/-- For a path that `fs::canonical` does not resolve, `create_new_target`
on a debugger without target is left by the exception; and on a file system
where the canonical form of a path exists, as `fs::canonical` guarantees,
it never returns ExecutableDoesNotExist. -/
theorem create_new_target_never_reports_missing (fs : FileSystem) (engine : Engine)
    (app : Application) (exe_filepath : String) (argv : List String) (delay_start : Bool)
    (workdir : Option String)
    (hfs : ∀ p q, fs.canonical p = some q → fs.path_exists q = true) :
    ∀ app1 err,
      create_new_target fs engine app exe_filepath argv delay_start workdir
        = .ok (app1, some err) → err.type ≠ .ExecutableDoesNotExist := by
  intro app1 err hret
  by_cases h0 : app.debugger.GetNumTargets > 0
  · rw [create_new_target_has_target _ _ _ _ _ _ _ h0] at hret
    cases hret
    decide
  · have h0 : app.debugger.GetNumTargets = 0 := by omega
    cases hc : fs.canonical exe_filepath with
    | none =>
      rw [create_new_target_throws _ _ _ _ _ _ _ h0 hc] at hret
      cases hret
    | some p =>
      have he := hfs _ _ hc
      cases hct : engine.CreateTarget p with
      | error cstr =>
        obtain ⟨a, ha, _⟩ := create_new_target_creation _ _ _ _ argv delay_start workdir
          p cstr h0 hc he hct
        rw [ha] at hret
        cases hret
        simp
      | ok t =>
        cases hl : engine.Launch t argv with
        | error cstr =>
          obtain ⟨a, ha, _⟩ := create_new_target_launch _ _ _ _ argv delay_start workdir
            p t cstr h0 hc he hct hl
          rw [ha] at hret
          cases hret
          simp
        | ok process =>
          cases hw : (attach_wait engine.GetState 0 0).2 with
          | true =>
            obtain ⟨a, ha, _⟩ := create_new_target_timeout _ _ _ _ argv delay_start workdir
              p t process h0 hc he hct hl hw
            rw [ha] at hret
            cases hret
            decide
          | false =>
            obtain ⟨a, ha, _⟩ := create_new_target_success _ _ _ _ argv delay_start workdir
              p t process h0 hc he hct hl hw
            rw [ha] at hret
            cases hret

/-- C18, at the failing input: the path `/no/such/file` does not exist, so
`fs::canonical` throws, and the debugger has no target.
`create_new_target` does not return ExecutableDoesNotExist, it does not
return at all: the exception leaves it before the check of `fs::exists` is
reached.  No target is created. -/
theorem missing_executable_throws :
    empty_file_system.path_exists "/no/such/file" = false ∧
    (Application.ctor 0).debugger.GetNumTargets = 0 ∧
    create_new_target empty_file_system (willing_engine stopped_at_once)
        (Application.ctor 0) "/no/such/file" [] true none =
      .error { fault := .uncaught_exception, state := Application.ctor 0 } ∧
    ∀ app1 msg,
      create_new_target empty_file_system (willing_engine stopped_at_once)
          (Application.ctor 0) "/no/such/file" [] true none ≠
        .ok (app1, some { type := .ExecutableDoesNotExist, msg := msg }) := by
  have h := create_new_target_throws empty_file_system (willing_engine stopped_at_once)
    (Application.ctor 0) "/no/such/file" [] true none rfl rfl
  refine ⟨rfl, rfl, h, ?_⟩
  intro app1 msg hret
  rw [h] at hret
  cases hret

/-! ### delete_current_targets -/

/-- The loop of `delete_current_targets`, one turn. -/
theorem delete_current_targets_from_step (debugger : SBDebugger) (i : Nat) (target : SBTarget)
    (hi : i < debugger.GetNumTargets) (ht : debugger.GetTargetAtIndex i = some target) :
    delete_current_targets_from debugger i =
      delete_current_targets_from (debugger.DeleteTarget target) (i + 1) := by
  rw [delete_current_targets_from]
  simp [hi, ht]

/-- The loop of `delete_current_targets`, at its end. -/
theorem delete_current_targets_from_done (debugger : SBDebugger) (i : Nat)
    (hi : ¬ i < debugger.GetNumTargets) :
    delete_current_targets_from debugger i = debugger := by
  rw [delete_current_targets_from]
  simp [hi]

/-- C16, at the failing input: a debugger that holds two targets.  After
`delete_current_targets` it still holds one, the second: the loop deletes
the target at index 0, moves on to index 1 and finds the bound, read anew,
at 1.  With three targets one is left, with four two.  With none or one
target the debugger is left without targets. -/
theorem delete_current_targets_leaves_targets :
    (session_with_targets [0, 1]).GetNumTargets = 2 ∧
    (delete_current_targets
      (application_of (session_with_targets [0, 1]) [] none)).debugger.GetNumTargets = 1 ∧
    (delete_current_targets
      (application_of (session_with_targets [0, 1]) [] none)).debugger.targets.map (fun t => t.id)
        = [1] ∧
    (delete_current_targets
      (application_of (session_with_targets [0, 1, 2]) [] none)).debugger.GetNumTargets = 1 ∧
    (delete_current_targets
      (application_of (session_with_targets [0, 1, 2, 3]) [] none)).debugger.GetNumTargets = 2 ∧
    (delete_current_targets
      (application_of (session_with_targets []) [] none)).debugger.GetNumTargets = 0 ∧
    (delete_current_targets
      (application_of (session_with_targets [0]) [] none)).debugger.GetNumTargets = 0 := by
  have h2 : delete_current_targets_from (session_with_targets [0, 1]) 0
      = (session_with_targets [0, 1]).DeleteTarget (bare_target 0) := by
    rw [delete_current_targets_from_step (session_with_targets [0, 1]) 0 (bare_target 0)
      (by decide) rfl]
    exact delete_current_targets_from_done _ 1 (by decide)
  have h3 : delete_current_targets_from (session_with_targets [0, 1, 2]) 0
      = ((session_with_targets [0, 1, 2]).DeleteTarget (bare_target 0)).DeleteTarget
          (bare_target 2) := by
    rw [delete_current_targets_from_step (session_with_targets [0, 1, 2]) 0 (bare_target 0)
        (by decide) rfl,
      delete_current_targets_from_step
        ((session_with_targets [0, 1, 2]).DeleteTarget (bare_target 0)) 1 (bare_target 2)
        (by decide) rfl]
    exact delete_current_targets_from_done _ 2 (by decide)
  have h4 : delete_current_targets_from (session_with_targets [0, 1, 2, 3]) 0
      = ((session_with_targets [0, 1, 2, 3]).DeleteTarget (bare_target 0)).DeleteTarget
          (bare_target 2) := by
    rw [delete_current_targets_from_step (session_with_targets [0, 1, 2, 3]) 0 (bare_target 0)
        (by decide) rfl,
      delete_current_targets_from_step
        ((session_with_targets [0, 1, 2, 3]).DeleteTarget (bare_target 0)) 1 (bare_target 2)
        (by decide) rfl]
    exact delete_current_targets_from_done _ 2 (by decide)
  have h0 : delete_current_targets_from (session_with_targets []) 0
      = session_with_targets [] :=
    delete_current_targets_from_done _ 0 (by decide)
  have h1 : delete_current_targets_from (session_with_targets [0]) 0
      = (session_with_targets [0]).DeleteTarget (bare_target 0) := by
    rw [delete_current_targets_from_step (session_with_targets [0]) 0 (bare_target 0)
      (by decide) rfl]
    exact delete_current_targets_from_done _ 1 (by decide)
  refine ⟨rfl, ?_, ?_, ?_, ?_, ?_, ?_⟩
  · show (delete_current_targets_from (session_with_targets [0, 1]) 0).GetNumTargets = 1
    rw [h2]; rfl
  · show (delete_current_targets_from (session_with_targets [0, 1]) 0).targets.map
      (fun t => t.id) = [1]
    rw [h2]; rfl
  · show (delete_current_targets_from (session_with_targets [0, 1, 2]) 0).GetNumTargets = 1
    rw [h3]; rfl
  · show (delete_current_targets_from (session_with_targets [0, 1, 2, 3]) 0).GetNumTargets = 2
    rw [h4]; rfl
  · show (delete_current_targets_from (session_with_targets []) 0).GetNumTargets = 0
    rw [h0]; rfl
  · show (delete_current_targets_from (session_with_targets [0]) 0).GetNumTargets = 0
    rw [h1]; rfl

/-! ### The breakpoint rows of draw -/

/-- The loop body draws one row, whatever the breakpoint, and logs its
errors. -/
theorem draw_breakpoint_row_spec (build_string : Option String → String)
    (clicked : Nat → Bool) (i : Nat) (breakpoint : SBBreakpoint) (pane : BreakpointsPane) :
    ∃ row : BreakpointRow,
      (draw_breakpoint_row build_string clicked i breakpoint pane).rows = pane.rows ++ [row] ∧
      row.filename = build_string (SBAddress.GetLineEntry
        (SBBreakpointLocation.GetAddress (breakpoint.GetLocationAtIndex 0))).filename ∧
      row.line = line_text (SBAddress.GetLineEntry
        (SBBreakpointLocation.GetAddress (breakpoint.GetLocationAtIndex 0))).line ∧
      (draw_breakpoint_row build_string clicked i breakpoint pane).log =
        pane.log ++ breakpoint_errors breakpoint := by
  refine ⟨{ filename := build_string (SBAddress.GetLineEntry
              (SBBreakpointLocation.GetAddress (breakpoint.GetLocationAtIndex 0))).filename,
            filename_selected := decide ((i : Int) = pane.selected_row),
            line := line_text (SBAddress.GetLineEntry
              (SBBreakpointLocation.GetAddress (breakpoint.GetLocationAtIndex 0))).line,
            line_selected :=
              decide ((i : Int) = if clicked i then (i : Int) else pane.selected_row) },
    ?_, rfl, rfl, ?_⟩
  · unfold draw_breakpoint_row
    cases h1 : (breakpoint.GetLocationAtIndex 0).isSome <;>
      cases h2 : (SBBreakpointLocation.GetAddress (breakpoint.GetLocationAtIndex 0)).isSome <;>
      cases h3 : clicked i <;> simp [h1, h2, h3]
  · unfold draw_breakpoint_row breakpoint_errors SBBreakpoint.has_valid_address
    cases h1 : (breakpoint.GetLocationAtIndex 0).isSome <;>
      cases h2 : (SBBreakpointLocation.GetAddress (breakpoint.GetLocationAtIndex 0)).isSome <;>
      cases h3 : clicked i <;> simp [h1, h2, h3]

/-- The loop draws one row per breakpoint that is left, in order. -/
theorem draw_breakpoint_rows_from_spec (build_string : Option String → String)
    (clicked : Nat → Bool) (breakpoints : List SBBreakpoint) (i : Nat) (pane : BreakpointsPane) :
    ((draw_breakpoint_rows_from build_string clicked i breakpoints pane).rows.map
        (fun r => (r.filename, r.line)) =
      pane.rows.map (fun r => (r.filename, r.line)) ++
        breakpoints.map (fun b =>
          (build_string (SBAddress.GetLineEntry
              (SBBreakpointLocation.GetAddress (b.GetLocationAtIndex 0))).filename,
           line_text (SBAddress.GetLineEntry
              (SBBreakpointLocation.GetAddress (b.GetLocationAtIndex 0))).line))) ∧
    (draw_breakpoint_rows_from build_string clicked i breakpoints pane).log =
      pane.log ++ breakpoints.flatMap breakpoint_errors := by
  induction breakpoints generalizing i pane with
  | nil => simp [draw_breakpoint_rows_from]
  | cons b rest ih =>
    obtain ⟨row, hr, hf, hl, hlog⟩ := draw_breakpoint_row_spec build_string clicked i b pane
    obtain ⟨ih1, ih2⟩ := ih (i + 1) (draw_breakpoint_row build_string clicked i b pane)
    simp only [draw_breakpoint_rows_from]
    constructor
    · rw [ih1, hr]
      simp [hf, hl]
    · rw [ih2, hlog]
      simp [List.flatMap_cons]

/-- C14 as stated fails.  The target holds a breakpoint without location
and a resolved one.  The first is logged as an error, twice (invalid
location, invalid address), but its row is drawn all the same, with an
empty file name and line 0: two rows are drawn, while only one breakpoint
has a valid location and address. -/
theorem draw_breakpoints_draws_invalid_row :
    (draw_breakpoints null_to_empty (fun _ => false)
        (some (target_with_breakpoints [pending_breakpoint, resolved_breakpoint]))
        empty_pane).rows =
      [{ filename := "", filename_selected := false, line := "0", line_selected := false },
       { filename := "main.cpp", filename_selected := false, line := "7",
         line_selected := false }] ∧
    (draw_breakpoints null_to_empty (fun _ => false)
        (some (target_with_breakpoints [pending_breakpoint, resolved_breakpoint]))
        empty_pane).log =
      [{ level := .Error, message := "Invalid breakpoint location encountered!" },
       { level := .Error, message := "Invalid lldb::SBAddress for breakpoint!" }] ∧
    (target_with_breakpoints [pending_breakpoint, resolved_breakpoint]).breakpoints.filter
        SBBreakpoint.has_valid_address = [resolved_breakpoint] ∧
    (draw_breakpoints null_to_empty (fun _ => false)
        (some (target_with_breakpoints [pending_breakpoint, resolved_breakpoint]))
        empty_pane).rows.length ≠
      ((target_with_breakpoints [pending_breakpoint, resolved_breakpoint]).breakpoints.filter
        SBBreakpoint.has_valid_address).length := by
  refine ⟨?_, ?_, ?_, ?_⟩
  · decide
  · decide
  · decide
  · decide

/-- C14, amended.  The enumeration of the target's breakpoints in `draw`
logs a breakpoint whose first location is invalid, and one whose address is
invalid, as an error, and goes on: it draws one row for every breakpoint of
the target, in index order, valid or not, labelled with the file name and
the line of the line entry that the (possibly invalid) address gives. -/
theorem draw_breakpoints_draws_every_row (build_string : Option String → String)
    (clicked : Nat → Bool) (target : Option SBTarget) (pane : BreakpointsPane) :
    ((draw_breakpoints build_string clicked target pane).rows.map
        (fun r => (r.filename, r.line)) =
      pane.rows.map (fun r => (r.filename, r.line)) ++
        (SBTarget.breakpoints_of target).map (fun b =>
          (build_string (SBAddress.GetLineEntry
              (SBBreakpointLocation.GetAddress (b.GetLocationAtIndex 0))).filename,
           line_text (SBAddress.GetLineEntry
              (SBBreakpointLocation.GetAddress (b.GetLocationAtIndex 0))).line))) ∧
    (draw_breakpoints build_string clicked target pane).rows.length =
      pane.rows.length + SBTarget.GetNumBreakpoints target ∧
    (draw_breakpoints build_string clicked target pane).log =
      pane.log ++ (SBTarget.breakpoints_of target).flatMap breakpoint_errors ∧
    ∀ b : SBBreakpoint, breakpoint_errors b =
      (if (b.GetLocationAtIndex 0).isSome then []
       else [{ level := .Error, message := "Invalid breakpoint location encountered!" }]) ++
      (if (SBBreakpointLocation.GetAddress (b.GetLocationAtIndex 0)).isSome then []
       else [{ level := .Error, message := "Invalid lldb::SBAddress for breakpoint!" }]) := by
  have hmain : ((draw_breakpoints build_string clicked target pane).rows.map
        (fun r => (r.filename, r.line)) =
      pane.rows.map (fun r => (r.filename, r.line)) ++
        (SBTarget.breakpoints_of target).map (fun b =>
          (build_string (SBAddress.GetLineEntry
              (SBBreakpointLocation.GetAddress (b.GetLocationAtIndex 0))).filename,
           line_text (SBAddress.GetLineEntry
              (SBBreakpointLocation.GetAddress (b.GetLocationAtIndex 0))).line))) ∧
    (draw_breakpoints build_string clicked target pane).log =
      pane.log ++ (SBTarget.breakpoints_of target).flatMap breakpoint_errors := by
    cases target with
    | none => simp [draw_breakpoints, SBTarget.breakpoints_of]
    | some t => exact draw_breakpoint_rows_from_spec build_string clicked t.breakpoints 0 pane
  refine ⟨hmain.1, ?_, hmain.2, fun b => rfl⟩
  have hlen := congrArg List.length hmain.1
  simp only [List.length_map, List.length_append] at hlen
  rw [hlen]
  cases target <;> rfl

/-! ### add_breakpoint_to_viewed_file -/

/-- A write through the handle of the selected target leaves the recorded
requests alone. -/
theorem breakpoint_requests_onSelectedTarget (debugger : SBDebugger) (f : SBTarget → SBTarget) :
    (debugger.onSelectedTarget f).breakpoint_requests = debugger.breakpoint_requests := by
  unfold SBDebugger.onSelectedTarget
  split <;> rfl

/-- `BreakpointCreateByLocation` records its request, once. -/
theorem breakpoint_requests_create (debugger : SBDebugger) (file : String) (line : Int) :
    (debugger.BreakpointCreateByLocation file line).1.breakpoint_requests =
      debugger.breakpoint_requests ++ [(file, line)] := by
  unfold SBDebugger.BreakpointCreateByLocation
  simp only
  split
  · split
    · rfl
    · exact breakpoint_requests_onSelectedTarget _ _
  · rfl

/-- `add_breakpoint_to_viewed_file` makes one request when a file is
focused and none otherwise. -/
theorem breakpoint_requests_add (C : Collaborators) (app : Application) (line : Int) :
    (add_breakpoint_to_viewed_file C app line).debugger.breakpoint_requests =
      app.debugger.breakpoint_requests ++
        (match app.open_files.focus with
          | some ref => [(ref.canonical_path, to_uint32 line)]
          | none => []) := by
  unfold add_breakpoint_to_viewed_file
  cases hf : app.open_files.focus with
  | none => simp
  | some ref =>
    simp only [Application.LOG]
    split
    · exact breakpoint_requests_create _ _ _
    · simp only [SBDebugger.BreakpointDelete]
      rw [breakpoint_requests_onSelectedTarget]
      exact breakpoint_requests_create _ _ _

/-- A line number that fits a `uint32_t` is passed on as it is. -/
theorem to_uint32_of_line (line : Int) (h0 : 0 ≤ line) (h1 : line < 4294967296) :
    to_uint32 line = line := by
  unfold to_uint32
  exact Int.emod_eq_of_lt h0 h1

/-- C13. In `tick`, once the drain has ended and `draw` has returned, the
engine receives a request to create a breakpoint exactly if the text editor
reports a clicked line and a file is focused; the request is then made
once, for the canonical path of the focused file and the clicked line (a
line number that fits the `uint32_t` parameter is passed on unchanged).
Otherwise no request is made. -/
theorem tick_requests_breakpoint_for_click (C : Collaborators) (app app1 : Application)
    (pops : List (Option SBEvent)) (v : View)
    (hd : tick_drain app = .ok (app1, pops)) (hv : C.draw app1.view = .ok v) :
    ∃ app2,
      tick C app = .ok app2 ∧
      app2.debugger.breakpoint_requests = v.debugger.breakpoint_requests ++
        (match v.text_editor.line_clicked, v.open_files.focus with
          | some line, some ref => [(ref.canonical_path, to_uint32 line)]
          | _, _ => []) ∧
      ∀ line, v.text_editor.line_clicked = some line → 0 ≤ line → line < 4294967296 →
        to_uint32 line = line := by
  unfold tick tick_render
  rw [hd]
  simp only [hv]
  cases hl : v.text_editor.line_clicked with
  | none =>
    refine ⟨app1.withView v, ?_, ?_, ?_⟩
    · simp [Application.withView, hl]
    · simp [Application.withView]
    · intro line h; cases h
  | some line =>
    refine ⟨add_breakpoint_to_viewed_file C (app1.withView v) line, ?_, ?_, ?_⟩
    · simp [Application.withView, hl]
    · rw [breakpoint_requests_add]
      cases hf : v.open_files.focus <;> simp [Application.withView, hf]
    · intro line1 _ h0 h1
      exact to_uint32_of_line line1 h0 h1

/-- C13, on an application with `/src/main.cpp` focused and line 12
clicked: one request, for `/src/main.cpp:12`. -/
theorem tick_requests_breakpoint_for_click_witness :
    tick_drain (clicked_application (session_with_breakpoints []) (some 12)) =
      .ok (clicked_application (session_with_breakpoints []) (some 12), [none]) ∧
    idle_collaborators.draw (clicked_application (session_with_breakpoints []) (some 12)).view =
      .ok (clicked_application (session_with_breakpoints []) (some 12)).view ∧
    ∃ app2,
      tick idle_collaborators (clicked_application (session_with_breakpoints []) (some 12))
        = .ok app2 ∧
      app2.debugger.breakpoint_requests = [("/src/main.cpp", 12)] := by
  have hd := tick_drain_nil (clicked_application (session_with_breakpoints []) (some 12)) rfl
  refine ⟨hd, rfl, ?_⟩
  obtain ⟨app2, h1, h2, _⟩ := tick_requests_breakpoint_for_click idle_collaborators
    (clicked_application (session_with_breakpoints []) (some 12))
    (clicked_application (session_with_breakpoints []) (some 12)) [none]
    (clicked_application (session_with_breakpoints []) (some 12)).view hd rfl
  exact ⟨app2, h1, h2⟩

/-- Deleting an id that no breakpoint of the selected target has changes no
breakpoint. -/
theorem breakpoints_of_BreakpointDelete_absent (debugger : SBDebugger) (break_id : Int)
    (h : ∀ t, debugger.GetSelectedTarget = some t → ∀ b ∈ t.breakpoints, b.id ≠ break_id) :
    SBTarget.breakpoints_of (debugger.BreakpointDelete break_id).GetSelectedTarget =
      SBTarget.breakpoints_of debugger.GetSelectedTarget := by
  unfold SBDebugger.BreakpointDelete
  rw [GetSelectedTarget_onSelectedTarget]
  cases ht : debugger.GetSelectedTarget with
  | none => rfl
  | some t =>
    simp only [Option.map_some', SBTarget.breakpoints_of]
    apply List.filter_eq_self.mpr
    intro b hb
    simpa using h t ht b hb

/-- The breakpoints of the selected target after a failed
`add_breakpoint_to_viewed_file`, the ids of the breakpoints being positive
and below the next id. -/
theorem breakpoints_of_create_delete (debugger : SBDebugger) (file : String) (line : Int)
    (hids : ∀ t, debugger.GetSelectedTarget = some t →
      ∀ b ∈ t.breakpoints, 0 < b.id ∧ b.id < t.next_breakpoint_id) :
    SBTarget.breakpoints_of
        ((debugger.BreakpointCreateByLocation file line).1.BreakpointDelete
          (SBBreakpoint.GetID (debugger.BreakpointCreateByLocation file line).2)).GetSelectedTarget
      = SBTarget.breakpoints_of debugger.GetSelectedTarget := by
  have hsel : ({ debugger with
      breakpoint_requests := debugger.breakpoint_requests ++ [(file, line)] } : SBDebugger
        ).GetSelectedTarget = debugger.GetSelectedTarget := rfl
  cases ht : debugger.GetSelectedTarget with
  | none =>
    have hc : debugger.BreakpointCreateByLocation file line =
        ({ debugger with
            breakpoint_requests := debugger.breakpoint_requests ++ [(file, line)] }, none) := by
      unfold SBDebugger.BreakpointCreateByLocation
      simp only [hsel, ht]
    rw [hc]
    simp only
    rw [breakpoints_of_BreakpointDelete_absent _ _ (by
      intro t h; rw [hsel, ht] at h; cases h), hsel, ht]
  | some t =>
    by_cases hl : line = 0
    · have hc : debugger.BreakpointCreateByLocation file line =
          ({ debugger with
              breakpoint_requests := debugger.breakpoint_requests ++ [(file, line)] }, none) := by
        unfold SBDebugger.BreakpointCreateByLocation
        simp only [hl, if_true]
        split <;> rfl
      rw [hc]
      simp only
      rw [breakpoints_of_BreakpointDelete_absent _ _ (by
        intro t1 h b hb
        rw [hsel] at h
        have := (hids t1 h b hb).1
        simp only [SBBreakpoint.GetID]
        omega), hsel, ht]
    · have hc : debugger.BreakpointCreateByLocation file line =
          (({ debugger with
              breakpoint_requests := debugger.breakpoint_requests ++ [(file, line)] }
              : SBDebugger).onSelectedTarget fun t1 =>
              { t1 with breakpoints := t1.breakpoints ++
                          [{ id := t.next_breakpoint_id, file := file, line := line,
                             locations := t.resolve file line }],
                        next_breakpoint_id := t1.next_breakpoint_id + 1 },
           some { id := t.next_breakpoint_id, file := file, line := line,
                  locations := t.resolve file line }) := by
        unfold SBDebugger.BreakpointCreateByLocation
        simp only [hsel, ht, hl, if_false]
      rw [hc]
      simp only [SBBreakpoint.GetID, SBDebugger.BreakpointDelete]
      rw [GetSelectedTarget_onSelectedTarget, GetSelectedTarget_onSelectedTarget, hsel, ht]
      simp only [Option.map_some', SBTarget.breakpoints_of]
      rw [List.filter_append]
      have h1 : t.breakpoints.filter (fun b => b.id != t.next_breakpoint_id) = t.breakpoints := by
        apply List.filter_eq_self.mpr
        intro b hb
        have := (hids t ht b hb).2
        simp only [bne_iff_ne, ne_eq]
        omega
      rw [h1]
      simp

/-- C17. Whenever `add_breakpoint_to_viewed_file` does not get a valid
breakpoint with at least one location (no file is focused, or the handle
the engine returns is invalid, or the breakpoint has no location), the
breakpoint table of the application and the text editor with its markers
are as before, and the selected target holds the same breakpoints as
before the call, so the same number: the breakpoint the engine created for
the request has been deleted again.  The ids of the target's breakpoints
are taken to be what the engine hands out: positive and below the next
id. -/
theorem add_breakpoint_failure_restores (C : Collaborators) (app : Application) (line : Int)
    (hids : ∀ t, app.debugger.GetSelectedTarget = some t →
      ∀ b ∈ t.breakpoints, 0 < b.id ∧ b.id < t.next_breakpoint_id)
    (hfail : ∀ ref, app.open_files.focus = some ref →
      ¬ (SBBreakpoint.IsValid
            (app.debugger.BreakpointCreateByLocation ref.canonical_path (to_uint32 line)).2 = true ∧
          SBBreakpoint.GetNumLocations
            (app.debugger.BreakpointCreateByLocation ref.canonical_path (to_uint32 line)).2 > 0)) :
    (add_breakpoint_to_viewed_file C app line).breakpoints = app.breakpoints ∧
    (add_breakpoint_to_viewed_file C app line).text_editor = app.text_editor ∧
    SBTarget.breakpoints_of (add_breakpoint_to_viewed_file C app line).debugger.GetSelectedTarget
      = SBTarget.breakpoints_of app.debugger.GetSelectedTarget ∧
    SBTarget.GetNumBreakpoints (add_breakpoint_to_viewed_file C app line).debugger.GetSelectedTarget
      = SBTarget.GetNumBreakpoints app.debugger.GetSelectedTarget := by
  have hnum : ∀ target : Option SBTarget,
      SBTarget.GetNumBreakpoints target = (SBTarget.breakpoints_of target).length := by
    intro target; cases target <;> rfl
  cases hf : app.open_files.focus with
  | none =>
    have hres : add_breakpoint_to_viewed_file C app line = app := by
      unfold add_breakpoint_to_viewed_file
      simp [hf]
    rw [hres]
    exact ⟨rfl, rfl, rfl, rfl⟩
  | some ref =>
    have hres : add_breakpoint_to_viewed_file C app line =
        { ({ app with debugger :=
              (app.debugger.BreakpointCreateByLocation ref.canonical_path (to_uint32 line)).1
            } : Application).LOG .Debug "Removing invalid break point" with
          debugger :=
            (app.debugger.BreakpointCreateByLocation ref.canonical_path
                (to_uint32 line)).1.BreakpointDelete
              (SBBreakpoint.GetID
                (app.debugger.BreakpointCreateByLocation ref.canonical_path
                  (to_uint32 line)).2) } := by
      unfold add_breakpoint_to_viewed_file
      simp only [hf]
      rw [if_neg (hfail ref hf)]
      rfl
    have hb := breakpoints_of_create_delete app.debugger ref.canonical_path (to_uint32 line) hids
    rw [hres]
    refine ⟨rfl, rfl, hb, ?_⟩
    rw [hnum, hnum]
    exact congrArg List.length hb

/-- C17, on a target that holds one breakpoint (id 2, next id 3) and
resolves no location for `/src/main.cpp:12`: the engine creates breakpoint 3
without location, the call deletes it again, and the target holds its one
breakpoint as before; the markers of the editor are unchanged. -/
theorem add_breakpoint_failure_restores_witness :
    (∀ t, (clicked_application (session_with_breakpoints [resolved_breakpoint])
          (some 12)).debugger.GetSelectedTarget = some t →
      ∀ b ∈ t.breakpoints, 0 < b.id ∧ b.id < t.next_breakpoint_id) ∧
    (∀ ref, (clicked_application (session_with_breakpoints [resolved_breakpoint])
          (some 12)).open_files.focus = some ref →
      ¬ (SBBreakpoint.IsValid
            ((clicked_application (session_with_breakpoints [resolved_breakpoint])
              (some 12)).debugger.BreakpointCreateByLocation ref.canonical_path
                (to_uint32 12)).2 = true ∧
          SBBreakpoint.GetNumLocations
            ((clicked_application (session_with_breakpoints [resolved_breakpoint])
              (some 12)).debugger.BreakpointCreateByLocation ref.canonical_path
                (to_uint32 12)).2 > 0)) ∧
    SBTarget.breakpoints_of
        (add_breakpoint_to_viewed_file idle_collaborators
          (clicked_application (session_with_breakpoints [resolved_breakpoint]) (some 12))
          12).debugger.GetSelectedTarget = [resolved_breakpoint] ∧
    (add_breakpoint_to_viewed_file idle_collaborators
          (clicked_application (session_with_breakpoints [resolved_breakpoint]) (some 12))
          12).text_editor.breakpoints = [5] := by
  have hids : ∀ t, (clicked_application (session_with_breakpoints [resolved_breakpoint])
          (some 12)).debugger.GetSelectedTarget = some t →
      ∀ b ∈ t.breakpoints, 0 < b.id ∧ b.id < t.next_breakpoint_id := by
    intro t h b hb
    have ht : some (target_with_breakpoints [resolved_breakpoint]) = some t := h
    have ht1 := Option.some.inj ht
    subst ht1
    have hb1 : b = resolved_breakpoint := by
      simpa [target_with_breakpoints] using hb
    subst hb1
    decide
  have hfail : ∀ ref, (clicked_application (session_with_breakpoints [resolved_breakpoint])
          (some 12)).open_files.focus = some ref →
      ¬ (SBBreakpoint.IsValid
            ((clicked_application (session_with_breakpoints [resolved_breakpoint])
              (some 12)).debugger.BreakpointCreateByLocation ref.canonical_path
                (to_uint32 12)).2 = true ∧
          SBBreakpoint.GetNumLocations
            ((clicked_application (session_with_breakpoints [resolved_breakpoint])
              (some 12)).debugger.BreakpointCreateByLocation ref.canonical_path
                (to_uint32 12)).2 > 0) := by
    intro ref _ hboth
    have h2 : (0 : Nat) > 0 := hboth.2
    exact absurd h2 (by decide)
  have hthm := add_breakpoint_failure_restores idle_collaborators
    (clicked_application (session_with_breakpoints [resolved_breakpoint]) (some 12)) 12
    hids hfail
  exact ⟨hids, hfail, hthm.2.2.1, by rw [hthm.2.1]; rfl⟩

end lldbg
